import Mathlib

/-!
Shallow embedding of the `excel-ai-addin` test double: the in-memory
spreadsheet simulator (`tests-aitest/excel_sim.py`) and the dispatch layer
(`tests-aitest/excel_mcp.py`).  Python dicts are modelled as insertion-ordered
association lists, Python `None` as `Option`, raised exceptions as
`Except PyErr`, and result dicts with conditionally present keys as
structures with `Option` fields (a `none` field models an absent key).
-/

namespace ExcelSim

/-- A raised Python exception (only `ValueError` is ever raised by the
simulator, from `_parse_cell`); the payload is the exception message. -/
abbrev PyErr := String

/-- Scalar Python values as they appear in cells and in free-form tool
parameters (`Any`-typed in the source). -/
inductive PyVal where
  | vstr (s : String)
  | vint (n : Int)
  | vbool (b : Bool)
  | vnone
deriving DecidableEq, Repr

/-- Python truthiness of a scalar, as used by the `x or y` idiom. -/
def PyVal.truthy : PyVal → Bool
  | .vstr s => !s.isEmpty
  | .vint n => n != 0
  | .vbool b => b
  | .vnone => false

/-- Python `x or y` on scalars. -/
def pyOr (x y : PyVal) : PyVal := if x.truthy then x else y

/-- Python `x or y` where `x : str | None` and the result feeds a `str`
position (`None` and `""` both fall through to `y`). -/
def pyOrStr (x : Option String) (y : String) : String :=
  match x with
  | some s => if s.isEmpty then y else s
  | none => y

/-- Python `a or b` where both sides are `str | None`
(`_resolve_sheet(sheet_ref or sheet_name)`). -/
def pyOrOpt (x y : Option String) : Option String :=
  match x with
  | some s => if s.isEmpty then y else some s
  | none => y

/-! ### Association lists standing for Python dicts -/

/-- Assignment `d[k] = v` on an insertion-ordered dict: replace in place if the key is
present, otherwise append. -/
def dictInsert (k : String) (v : α) : List (String × α) → List (String × α)
  | [] => [(k, v)]
  | (k', v') :: rest =>
    if k' = k then (k, v) :: rest else (k', v') :: dictInsert k v rest

/-- Lookup `d.get(k)` on a dict. -/
def dictGet (k : String) : List (String × α) → Option α
  | [] => none
  | (k', v') :: rest => if k' = k then some v' else dictGet k rest

/-- Lookup `d.get(k, default)`. -/
def dictGetD (k : String) (dflt : α) (d : List (String × α)) : α :=
  (dictGet k d).getD dflt

/-- Deletion `del d[k]`, its effect on the mapping. -/
def dictErase (k : String) : List (String × α) → List (String × α)
  | [] => []
  | (k', v') :: rest => if k' = k then rest else (k', v') :: dictErase k rest

/-- The keys of a dict in insertion order. -/
def dictKeys (d : List (String × α)) : List String := d.map Prod.fst

/-! ### Address / range algebra (`excel_sim.py` helpers) -/

/-- Model of `_col_to_index`: column letters to 0-based index (`A`→0, `Z`→25,
`AA`→26).  `result = result * 26 + (ord(c.upper()) - ord('A') + 1)` over the
characters, minus one at the end.  Python upper-cases the whole string first;
we upper-case per character, which is the same thing. -/
def colToIndex (col : String) : Int :=
  (col.data.foldl (fun acc c => acc * 26 + ((c.toUpper.toNat : Int) - 65 + 1)) 0) - 1

/-- The loop body of `_index_to_col` , written as structural recursion on the
bijective base-26 numeral `m = idx + 1` (`m = 0` ends the loop). -/
def indexToColAux (m : Nat) : List Char :=
  if h : m = 0 then []
  else indexToColAux ((m - 1) / 26) ++ [Char.ofNat (65 + (m - 1) % 26)]
decreasing_by
  exact Nat.lt_of_le_of_lt (Nat.div_le_self _ _) (Nat.sub_lt (Nat.pos_of_ne_zero h) Nat.one_pos)

/-- Model of `_index_to_col`: 0-based index to column letters.  Python works
on arbitrary ints: for `idx ≤ -1` the `while idx > 0` loop never runs and the
result is `""`, which `(idx + 1).toNat = 0` reproduces. -/
def indexToCol (idx : Int) : String := String.mk (indexToColAux (idx + 1).toNat)

/-- Decimal digits of a natural number, most significant first — the
character sequence Python's `str(n)` produces for a non-negative int. -/
def decDigits (n : Nat) : List Char :=
  if h : n < 10 then [Char.ofNat (48 + n)]
  else decDigits (n / 10) ++ [Char.ofNat (48 + n % 10)]
decreasing_by
  exact Nat.div_lt_self (Nat.lt_of_lt_of_le (by norm_num) (Nat.le_of_not_lt h)) (by norm_num)

/-- Python `str(n)` for a non-negative int. -/
def natToStr (n : Nat) : String := String.mk (decDigits n)

/-- Value of a run of decimal digit characters (`int(group)` in Python). -/
def digitsToNat (l : List Char) : Nat :=
  l.foldl (fun acc c => acc * 10 + (c.toNat - 48)) 0

/-- Model of `_parse_cell`: match `([A-Za-z]+)(\d+)` at the start of the string
(`re.match` — trailing garbage is ignored), returning the upper-cased
letters and the parsed row number; raises `ValueError` on no match.
Because the two character classes are disjoint, the greedy regex match is
exactly: maximal alphabetic prefix, then at least one digit. -/
def parseCell (ref : String) : Except PyErr (String × Nat) :=
  let letters := ref.data.takeWhile Char.isAlpha
  let digits := (ref.data.dropWhile Char.isAlpha).takeWhile Char.isDigit
  if letters.isEmpty || digits.isEmpty then
    .error ("Invalid cell reference: " ++ ref)
  else
    .ok (String.mk (letters.map Char.toUpper), digitsToNat digits)

/-- Split a character list at the first occurrence of `sep`
(Python `s.split(sep, 1)` when `sep in s`). -/
def splitFirst (sep : Char) : List Char → Option (List Char × List Char)
  | [] => none
  | c :: rest =>
    if c = sep then some ([], rest)
    else match splitFirst sep rest with
      | some (a, b) => some (c :: a, b)
      | none => none

/-- Quote characters stripped by `_parse_range`: single quote (code 39) and
double quote. -/
def isQuoteChar (c : Char) : Bool := c.toNat = 39 || c = '"'

/-- Python `s.strip(quotes)`: drop quote characters from both ends. -/
def stripQuotes (l : List Char) : List Char :=
  ((l.dropWhile isQuoteChar).reverse.dropWhile isQuoteChar).reverse

/-- Python `str.upper()` (ASCII-faithful). -/
def pyUpper (s : String) : String := String.mk (s.data.map Char.toUpper)

/-- Model of `_parse_range`: `'Sheet1!A1:B5'` into `(sheet name, start, end)`; the
sheet qualifier is optional, a bare cell is a 1×1 range, cell parts are
upper-cased.  Never fails. -/
def parseRange (address : String) : Option String × String × String :=
  let (sheetName, cellPart) :=
    match splitFirst '!' address.data with
    | some (a, b) => (some (String.mk (stripQuotes a)), b)
    | none => (none, address.data)
  match splitFirst ':' cellPart with
  | some (s, e) => (sheetName, pyUpper (String.mk s), pyUpper (String.mk e))
  | none => (sheetName, pyUpper (String.mk cellPart), pyUpper (String.mk cellPart))

/-- Python `str(n)` for an arbitrary int. -/
def intToStr (n : Int) : String :=
  if n < 0 then "-" ++ natToStr n.natAbs else natToStr n.toNat

/-- The cell-reference string `f"{_index_to_col(c)}{r}"` used throughout the
simulator as a dict key. -/
def cellRef (c : Int) (r : Int) : String :=
  indexToCol c ++ intToStr r

/-- Python `range(a, b)` over ints (empty when `b ≤ a`). -/
def pyRange (a b : Int) : List Int :=
  (List.range (b - a).toNat).map (fun i : Nat => a + (i : Int))

/-- Python `range(a, b + 1)` over ints. -/
def pyRangeIncl (a b : Int) : List Int := pyRange a (b + 1)

/-- Python `str(v)` for the scalar values the simulator stores. -/
def pyStr : PyVal → String
  | .vstr s => s
  | .vint n => intToStr n
  | .vbool b => if b then "True" else "False"
  | .vnone => "None"

/-- Python `str.lower()` (ASCII-faithful). -/
def strLower (s : String) : String := String.mk (s.data.map Char.toLower)

/-- Python substring containment `needle in hay`. -/
def listContains (needle : List Char) : List Char → Bool
  | [] => needle.isEmpty
  | c :: t => needle.isPrefixOf (c :: t) || listContains needle t

/-- Fuelled loop of `str.replace` for a non-empty pattern: replace
non-overlapping occurrences left to right.  One unit of fuel is spent per
character position, so `s.length` fuel always suffices. -/
def pyReplaceGo (find repl : List Char) : Nat → List Char → List Char
  | _, [] => []
  | 0, l => l
  | fuel + 1, c :: rest =>
    if find.isPrefixOf (c :: rest) then
      repl ++ pyReplaceGo find repl fuel ((c :: rest).drop find.length)
    else c :: pyReplaceGo find repl fuel rest

/-- Python `s.replace(find, repl)` (all occurrences; an empty pattern
inserts `repl` at every position, as CPython does). -/
def pyReplace (s find repl : String) : String :=
  if find.isEmpty then String.mk (repl.data ++ s.data.flatMap (fun c => c :: repl.data))
  else String.mk (pyReplaceGo find.data repl.data s.data.length s.data)

/-! ### Data model (`excel_sim.py` dataclasses) -/

/-- Result from a tool call (`ToolResult`): the simulator only ever builds
it through `_ok(value)` and `_error_result(msg)`, which the two constructors
mirror. -/
inductive ToolResult (α : Type) where
  | ok (v : α)
  | err (msg : String)
deriving Repr, DecidableEq

/-- A cell comment. -/
structure Comment where
  cell_address : String
  text : String
  sheet_name : String
deriving Repr, DecidableEq

/-- A named table on a sheet. -/
structure Table where
  name : String
  address : String
  sheet_name : String
  has_headers : Bool := true
deriving Repr, DecidableEq

/-- A chart on a sheet. -/
structure Chart where
  name : String
  chart_type : String
  data_range : String
  sheet_name : String
  title : String := ""
deriving Repr, DecidableEq

/-- A conditional format rule.  `address` and `sheet_name` are annotated
`str` / `str | None` in the source but receive whatever the dispatcher
popped out of the argument map, so they are modelled as Python values. -/
structure ConditionalFormat where
  rule_type : String
  address : PyVal
  sheet_name : PyVal
  params : List (String × PyVal) := []
deriving Repr, DecidableEq

/-- A data validation rule (same typing note as `ConditionalFormat`). -/
structure DataValidation where
  validation_type : String
  address : PyVal
  sheet_name : PyVal
  params : List (String × PyVal) := []
deriving Repr, DecidableEq

/-- A workbook-scoped named range. -/
structure NamedRange where
  name : String
  address : String
  sheet_name : String
  comment : String := ""
deriving Repr, DecidableEq

/-- A worksheet with cells.  `page_layout` (constant defaults plus float
margins, untouched by every operation modelled here) is omitted. -/
structure Sheet where
  name : String
  cells : List (String × PyVal) := []
  formulas : List (String × String) := []
  formats : List (String × List (String × PyVal)) := []
  number_formats : List (String × String) := []
  merged : List String := []
  position : Nat := 0
  frozen_at : Option String := none
  is_protected : Bool := false
  visibility : String := "Visible"
  tab_color : String := ""
  hyperlinks : List (String × List (String × String)) := []
  hidden_rows : List Nat := []
  hidden_columns : List Nat := []
  grouped_rows : List String := []
  grouped_columns : List String := []
deriving Repr, DecidableEq

/-- The whole simulator state (the fields of `ExcelSimulator.__init__`). -/
structure SimState where
  sheets : List (String × Sheet)
  active_sheet : String
  tables : List (String × Table) := []
  charts : List (String × Chart) := []
  comments : List Comment := []
  conditional_formats : List ConditionalFormat := []
  data_validations : List DataValidation := []
  named_ranges : List (String × NamedRange) := []
  chart_counter : Nat := 0
deriving Repr, DecidableEq

/-- The freshly constructed simulator: one sheet `"Sheet1"`, active. -/
def initState : SimState :=
  { sheets := [("Sheet1", { name := "Sheet1" })], active_sheet := "Sheet1" }

/-- Model of `_resolve_sheet`: pick the explicit name or the active sheet
(Python `or`, so `""` also falls back) and look it up; a miss yields the
error-`ToolResult` message the caller returns verbatim. -/
def resolveSheet (sheet_name : Option String) (st : SimState) :
    Except String (String × Sheet) :=
  let name := pyOrStr sheet_name st.active_sheet
  match dictGet name st.sheets with
  | some sh => .ok (name, sh)
  | none => .error ("Sheet \x27" ++ name ++ "\x27 not found")

/-! ### Range operations.  Operations that call `_parse_cell` can raise, so
they live in `Except PyErr`; a `.error` models an escaped `ValueError`. -/

/-- Model of `ExcelSimulator.get_range_values`. -/
def getRangeValues (address : String) (sheet_name : Option String) (st : SimState) :
    Except PyErr (ToolResult (List (List PyVal))) :=
  let (sheetRef, start, stop) := parseRange address
  match resolveSheet (pyOrOpt sheetRef sheet_name) st with
  | .error msg => .ok (.err msg)
  | .ok (_, sheet) =>
    match parseCell start with
    | .error e => .error e
    | .ok (startCol, startRow) =>
      match parseCell stop with
      | .error e => .error e
      | .ok (endCol, endRow) =>
        let rows := (pyRangeIncl startRow endRow).map (fun r =>
          (pyRangeIncl (colToIndex startCol) (colToIndex endCol)).map (fun c =>
            dictGetD (cellRef c r) (PyVal.vstr "") sheet.cells))
        .ok (.ok rows)

/-- Payload of a successful `set_range_values`. -/
structure SetRangeInfo where
  address : String
  rowsWritten : Nat
  columnsWritten : Nat
deriving Repr, DecidableEq

/-- The inner loop of `set_range_values`: write one row of values at row
index `rowIdx`, columns starting at `baseCol`. -/
def rowWrite (baseCol rowIdx : Int) (row : List PyVal)
    (cells : List (String × PyVal)) : List (String × PyVal) :=
  row.enum.foldl (fun cs civ => dictInsert (cellRef (baseCol + civ.1) rowIdx) civ.2 cs) cells

/-- The nested loops of `set_range_values`: write the 2D array `values`
anchored at `(baseCol, startRow)`. -/
def gridWrite (baseCol startRow : Int) (values : List (List PyVal))
    (cells : List (String × PyVal)) : List (String × PyVal) :=
  values.enum.foldl (fun cs riRow => rowWrite baseCol (startRow + riRow.1) riRow.2 cs) cells

/-- Model of `ExcelSimulator.set_range_values`: write a 2D array anchored at
the parsed start cell (the end cell of the address is ignored). -/
def setRangeValues (address : String) (values : List (List PyVal))
    (sheet_name : Option String) (st : SimState) :
    Except PyErr (ToolResult SetRangeInfo × SimState) :=
  let (sheetRef, start, _stop) := parseRange address
  match resolveSheet (pyOrOpt sheetRef sheet_name) st with
  | .error msg => .ok (.err msg, st)
  | .ok (sname, sheet) =>
    match parseCell start with
    | .error e => .error e
    | .ok (startCol, startRow) =>
      let baseCol := colToIndex startCol
      let newCells := gridWrite baseCol startRow values sheet.cells
      let numRows := values.length
      let numCols := (values.map List.length).foldl max 0
      let endCell := cellRef (baseCol + numCols - 1) (startRow + numRows - 1)
      .ok (.ok { address := start ++ ":" ++ endCell,
                 rowsWritten := numRows, columnsWritten := numCols },
           { st with sheets := dictInsert sname { sheet with cells := newCells } st.sheets })

/-- Payload of `get_used_range`: a result dict whose `values`, `truncated`
and `rowsReturned` keys are only conditionally present (`none` models an
absent key). -/
structure UsedRangeInfo where
  address : String
  rowCount : Int
  columnCount : Int
  values : Option (List (List PyVal)) := none
  truncated : Option Bool := none
  rowsReturned : Option Int := none
deriving Repr, DecidableEq

/-- The bounding-box fold of `get_used_range` over the cell dict keys:
running minima start at `float("inf")` (modelled `none`), running maxima at
`0`; `_parse_cell` failures propagate. -/
def usedBoundsAux : List String → (Option Int × Int × Option Int × Int) →
    Except PyErr (Option Int × Int × Option Int × Int)
  | [], acc => .ok acc
  | ref :: rest, (mc, xc, mr, xr) =>
    match parseCell ref with
    | .error e => .error e
    | .ok (colStr, rowNum) =>
      let ci := colToIndex colStr
      usedBoundsAux rest
        (some (match mc with | none => ci | some m => min m ci),
         max xc ci,
         some (match mr with | none => (rowNum : Int) | some m => min m rowNum),
         max xr rowNum)

/-- Model of `ExcelSimulator.get_used_range`. -/
def getUsedRange (sheet_name : Option String) (max_rows : Option Int) (st : SimState) :
    Except PyErr (ToolResult UsedRangeInfo) :=
  match resolveSheet sheet_name st with
  | .error msg => .ok (.err msg)
  | .ok (_, sheet) =>
    if sheet.cells.isEmpty then
      .ok (.ok { address := "A1", rowCount := 1, columnCount := 1,
                 values := if max_rows.isSome then some [[PyVal.vstr ""]] else none })
    else
      match usedBoundsAux (dictKeys sheet.cells) (none, 0, none, 0) with
      | .error e => .error e
      | .ok (mc, xc, mr, xr) =>
        let minCol := mc.getD 0  -- a remaining `none` (= inf) is unreachable: cells ≠ []
        let minRow := mr.getD 0
        let totalRows := xr - minRow + 1
        let totalCols := xc - minCol + 1
        let addr := cellRef minCol minRow ++ ":" ++ cellRef xc xr
        match max_rows with
        | none => .ok (.ok { address := addr, rowCount := totalRows, columnCount := totalCols })
        | some m =>
          let rowsToRead := min m totalRows
          let rows := (pyRange minRow (minRow + rowsToRead)).map (fun r =>
            (pyRangeIncl minCol xc).map (fun c =>
              dictGetD (cellRef c r) (PyVal.vstr "") sheet.cells))
          .ok (.ok { address := addr, rowCount := totalRows, columnCount := totalCols,
                     values := some rows,
                     truncated := if m < totalRows then some true else none,
                     rowsReturned := if m < totalRows then some rowsToRead else none })

/-- Payload of `clear_range`. -/
structure ClearRangeInfo where
  address : String
  cellsCleared : Nat
deriving Repr, DecidableEq

/-- Model of `ExcelSimulator.clear_range`. -/
def clearRange (address : String) (sheet_name : Option String) (st : SimState) :
    Except PyErr (ToolResult ClearRangeInfo × SimState) :=
  let (sheetRef, start, stop) := parseRange address
  match resolveSheet (pyOrOpt sheetRef sheet_name) st with
  | .error msg => .ok (.err msg, st)
  | .ok (sname, sheet) =>
    match parseCell start with
    | .error e => .error e
    | .ok (startCol, startRow) =>
      match parseCell stop with
      | .error e => .error e
      | .ok (endCol, endRow) =>
        let refs := (pyRangeIncl startRow endRow).flatMap (fun r =>
          (pyRangeIncl (colToIndex startCol) (colToIndex endCol)).map (fun c => cellRef c r))
        let acc := refs.foldl (fun acc ref =>
          let (cs, cnt, fs, fmts) := acc
          let (cs', cnt') := if (dictGet ref cs).isSome then (dictErase ref cs, cnt + 1)
                             else (cs, cnt)
          (cs', cnt', dictErase ref fs, dictErase ref fmts))
          (sheet.cells, 0, sheet.formulas, sheet.formats)
        let sheet' := { sheet with cells := acc.1, formulas := acc.2.2.1, formats := acc.2.2.2 }
        .ok (.ok { address := address, cellsCleared := acc.2.1 },
             { st with sheets := dictInsert sname sheet' st.sheets })

/-- Payload of `format_range`. -/
structure FormatRangeInfo where
  address : String
  formatsApplied : List String
deriving Repr, DecidableEq

/-- Model of `ExcelSimulator.format_range` (`**fmt` is the free-form format
attribute map). -/
def formatRange (address : String) (sheet_name : Option String)
    (fmt : List (String × PyVal)) (st : SimState) :
    Except PyErr (ToolResult FormatRangeInfo × SimState) :=
  let (sheetRef, start, stop) := parseRange address
  match resolveSheet (pyOrOpt sheetRef sheet_name) st with
  | .error msg => .ok (.err msg, st)
  | .ok (sname, sheet) =>
    match parseCell start with
    | .error e => .error e
    | .ok (startCol, startRow) =>
      match parseCell stop with
      | .error e => .error e
      | .ok (endCol, endRow) =>
        let refs := (pyRangeIncl startRow endRow).flatMap (fun r =>
          (pyRangeIncl (colToIndex startCol) (colToIndex endCol)).map (fun c => cellRef c r))
        let newFormats := refs.foldl (fun fs ref =>
          dictInsert ref (fmt.foldl (fun d kv => dictInsert kv.1 kv.2 d) (dictGetD ref [] fs)) fs)
          sheet.formats
        .ok (.ok { address := address, formatsApplied := fmt.map Prod.fst },
             { st with sheets := dictInsert sname { sheet with formats := newFormats } st.sheets })

/-- Payload of `set_number_format`. -/
structure NumberFormatInfo where
  address : String
  numberFormat : String
deriving Repr, DecidableEq

/-- Model of `ExcelSimulator.set_number_format`. -/
def setNumberFormat (address : String) (format_code : String)
    (sheet_name : Option String) (st : SimState) :
    Except PyErr (ToolResult NumberFormatInfo × SimState) :=
  let (sheetRef, start, stop) := parseRange address
  match resolveSheet (pyOrOpt sheetRef sheet_name) st with
  | .error msg => .ok (.err msg, st)
  | .ok (sname, sheet) =>
    match parseCell start with
    | .error e => .error e
    | .ok (startCol, startRow) =>
      match parseCell stop with
      | .error e => .error e
      | .ok (endCol, endRow) =>
        let refs := (pyRangeIncl startRow endRow).flatMap (fun r =>
          (pyRangeIncl (colToIndex startCol) (colToIndex endCol)).map (fun c => cellRef c r))
        let newNF := refs.foldl (fun d ref => dictInsert ref format_code d) sheet.number_formats
        .ok (.ok { address := address, numberFormat := format_code },
             { st with sheets := dictInsert sname { sheet with number_formats := newNF } st.sheets })

/-- Payload of `set_range_formulas`. -/
structure FormulasSetInfo where
  address : String
  formulasSet : Nat
deriving Repr, DecidableEq

/-- Model of `ExcelSimulator.set_range_formulas`: each written cell gets the
formula text in `formulas` and the marker string `"[formula:…]"` in `cells`. -/
def setRangeFormulas (address : String) (formulas : List (List String))
    (sheet_name : Option String) (st : SimState) :
    Except PyErr (ToolResult FormulasSetInfo × SimState) :=
  let (sheetRef, start, _stop) := parseRange address
  match resolveSheet (pyOrOpt sheetRef sheet_name) st with
  | .error msg => .ok (.err msg, st)
  | .ok (sname, sheet) =>
    match parseCell start with
    | .error e => .error e
    | .ok (startCol, startRow) =>
      let baseCol := colToIndex startCol
      let acc := formulas.enum.foldl (fun fc riRow =>
        riRow.2.enum.foldl (fun fc' cif =>
          let ref := cellRef (baseCol + cif.1) (startRow + riRow.1)
          (dictInsert ref cif.2 fc'.1,
           dictInsert ref (PyVal.vstr ("[formula:" ++ cif.2 ++ "]")) fc'.2)) fc)
        (sheet.formulas, sheet.cells)
      let sheet' := { sheet with formulas := acc.1, cells := acc.2 }
      .ok (.ok { address := address, formulasSet := formulas.length },
           { st with sheets := dictInsert sname sheet' st.sheets })

/-- Model of `ExcelSimulator.get_range_formulas`. -/
def getRangeFormulas (address : String) (sheet_name : Option String) (st : SimState) :
    Except PyErr (ToolResult (List (List String))) :=
  let (sheetRef, start, stop) := parseRange address
  match resolveSheet (pyOrOpt sheetRef sheet_name) st with
  | .error msg => .ok (.err msg)
  | .ok (_, sheet) =>
    match parseCell start with
    | .error e => .error e
    | .ok (startCol, startRow) =>
      match parseCell stop with
      | .error e => .error e
      | .ok (endCol, endRow) =>
        let rows := (pyRangeIncl startRow endRow).map (fun r =>
          (pyRangeIncl (colToIndex startCol) (colToIndex endCol)).map (fun c =>
            dictGetD (cellRef c r) "" sheet.formulas))
        .ok (.ok rows)

/-- Payload of `merge_cells`. -/
structure MergeInfo where
  address : String
  merged : Bool
deriving Repr, DecidableEq

/-- Model of `ExcelSimulator.merge_cells`: the address string is stored
verbatim; it is never parsed, and only the explicit/active sheet is
resolved. -/
def mergeCells (address : String) (across : Bool) (sheet_name : Option String)
    (st : SimState) : ToolResult MergeInfo × SimState :=
  match resolveSheet sheet_name st with
  | .error msg => (.err msg, st)
  | .ok (sname, sheet) =>
    let sheet' := { sheet with merged := sheet.merged ++ [address] }
    (.ok { address := address, merged := true },
     { st with sheets := dictInsert sname sheet' st.sheets })

/-- Payload of `unmerge_cells`. -/
structure UnmergeInfo where
  address : String
  unmerged : Bool
deriving Repr, DecidableEq

/-- Model of `ExcelSimulator.unmerge_cells`. -/
def unmergeCells (address : String) (sheet_name : Option String)
    (st : SimState) : ToolResult UnmergeInfo × SimState :=
  match resolveSheet sheet_name st with
  | .error msg => (.err msg, st)
  | .ok (sname, sheet) =>
    let sheet' := { sheet with merged := sheet.merged.filter (fun m => m ≠ address) }
    (.ok { address := address, unmerged := true },
     { st with sheets := dictInsert sname sheet' st.sheets })

/-- Payload of `replace_values`. -/
structure ReplaceInfo where
  find : String
  replace : String
  replacements : Nat
deriving Repr, DecidableEq

/-- Model of `ExcelSimulator.replace_values`: matching is a
case-insensitive substring test, but the substitution rewrites occurrences
of the exact-case `find` string (the `address` parameter is accepted and
ignored, as in the source). -/
def replaceValues (find repl : String) (address : Option String)
    (sheet_name : Option String) (st : SimState) :
    ToolResult ReplaceInfo × SimState :=
  match resolveSheet sheet_name st with
  | .error msg => (.err msg, st)
  | .ok (sname, sheet) =>
    let acc := sheet.cells.foldl (fun acc rv =>
      let cellStr := pyStr rv.2
      if listContains (strLower find).data (strLower cellStr).data then
        (dictInsert rv.1 (PyVal.vstr (pyReplace cellStr find repl)) acc.1, acc.2 + 1)
      else acc) (sheet.cells, 0)
    (.ok { find := find, replace := repl, replacements := acc.2 },
     { st with sheets := dictInsert sname { sheet with cells := acc.1 } st.sheets })

/-! ### Sheet operations -/

/-- Payload of `create_sheet`. -/
structure CreateSheetInfo where
  name : String
  id : String
  position : Nat
deriving Repr, DecidableEq

/-- Model of `ExcelSimulator.create_sheet`. -/
def createSheet (name : String) (st : SimState) : ToolResult CreateSheetInfo × SimState :=
  if (dictGet name st.sheets).isSome then
    (.err ("Sheet \x27" ++ name ++ "\x27 already exists"), st)
  else
    let pos := st.sheets.length
    (.ok { name := name, id := "sheet_" ++ name, position := pos },
     { st with sheets := dictInsert name { name := name, position := pos } st.sheets })

/-- Payload of `rename_sheet`. -/
structure RenameSheetInfo where
  previousName : String
  newName : String
deriving Repr, DecidableEq

/-- Model of `ExcelSimulator.rename_sheet`: pop the entry, re-insert it
under the new name (appended, since the new name is fresh), retarget the
active-sheet pointer if it named the renamed sheet. -/
def renameSheet (current_name new_name : String) (st : SimState) :
    ToolResult RenameSheetInfo × SimState :=
  match dictGet current_name st.sheets with
  | none => (.err ("Sheet \x27" ++ current_name ++ "\x27 not found"), st)
  | some sheet =>
    if (dictGet new_name st.sheets).isSome then
      (.err ("Sheet \x27" ++ new_name ++ "\x27 already exists"), st)
    else
      let sheets' := dictInsert new_name { sheet with name := new_name }
        (dictErase current_name st.sheets)
      (.ok { previousName := current_name, newName := new_name },
       { st with sheets := sheets',
                 active_sheet := if st.active_sheet = current_name then new_name
                                 else st.active_sheet })

/-- Payload of `delete_sheet`. -/
structure DeleteSheetInfo where
  deleted : String
deriving Repr, DecidableEq

/-- Model of `ExcelSimulator.delete_sheet`: refuses to delete the last
sheet; when the active sheet is deleted, `next(iter(self.sheets))` — the
first remaining key in insertion order — becomes active. -/
def deleteSheet (name : String) (st : SimState) : ToolResult DeleteSheetInfo × SimState :=
  if (dictGet name st.sheets).isNone then
    (.err ("Sheet \x27" ++ name ++ "\x27 not found"), st)
  else if st.sheets.length ≤ 1 then
    (.err "Cannot delete the last sheet", st)
  else
    let sheets' := dictErase name st.sheets
    let active' := if st.active_sheet = name then (dictKeys sheets').headD st.active_sheet
                   else st.active_sheet
    (.ok { deleted := name }, { st with sheets := sheets', active_sheet := active' })

/-- Payload of `activate_sheet`. -/
structure ActivateSheetInfo where
  activated : String
deriving Repr, DecidableEq

/-- Model of `ExcelSimulator.activate_sheet`. -/
def activateSheet (name : String) (st : SimState) : ToolResult ActivateSheetInfo × SimState :=
  if (dictGet name st.sheets).isNone then
    (.err ("Sheet \x27" ++ name ++ "\x27 not found"), st)
  else
    (.ok { activated := name }, { st with active_sheet := name })

/-- Payload of `copy_sheet`. -/
structure CopySheetInfo where
  sourceSheet : String
  copiedSheet : String
  position : Nat
deriving Repr, DecidableEq

/-- Model of `ExcelSimulator.copy_sheet`: the copy carries the cell,
formula, format, number-format and merge state of the source and dataclass
defaults for everything else. -/
def copySheet (name : String) (new_name : Option String) (st : SimState) :
    ToolResult CopySheetInfo × SimState :=
  match dictGet name st.sheets with
  | none => (.err ("Sheet \x27" ++ name ++ "\x27 not found"), st)
  | some source =>
    let copiedName := pyOrStr new_name (name ++ " (2)")
    if (dictGet copiedName st.sheets).isSome then
      (.err ("Sheet \x27" ++ copiedName ++ "\x27 already exists"), st)
    else
      let pos := source.position + 1
      let newSheet : Sheet :=
        { name := copiedName, cells := source.cells, formulas := source.formulas,
          formats := source.formats, number_formats := source.number_formats,
          merged := source.merged, position := pos }
      (.ok { sourceSheet := name, copiedSheet := copiedName, position := pos },
       { st with sheets := dictInsert copiedName newSheet st.sheets })

/-! ### Named ranges, conditional formats, data validations -/

/-- Payload of `define_named_range`. -/
structure NamedRangeInfo where
  name : String
  address : String
  comment : String
deriving Repr, DecidableEq

/-- Model of `ExcelSimulator.define_named_range`: an unconditional dict
assignment — an existing record under the same name is silently replaced. -/
def defineNamedRange (name address : String) (sheet_name : Option String)
    (st : SimState) : ToolResult NamedRangeInfo × SimState :=
  let sn := pyOrStr sheet_name st.active_sheet
  let nr : NamedRange := { name := name, address := address, sheet_name := sn }
  (.ok { name := name, address := address, comment := "" },
   { st with named_ranges := dictInsert name nr st.named_ranges })

/-- Payload of `add_conditional_format`. -/
structure CFInfo where
  ruleType : String
  address : PyVal
  applied : Bool
deriving Repr, DecidableEq

/-- Model of `ExcelSimulator.add_conditional_format` (`**params` free-form). -/
def addConditionalFormat (rule_type : String) (address : PyVal) (sheet_name : PyVal)
    (params : List (String × PyVal)) (st : SimState) : ToolResult CFInfo × SimState :=
  let sn := pyOr sheet_name (PyVal.vstr st.active_sheet)
  let cf : ConditionalFormat :=
    { rule_type := rule_type, address := address, sheet_name := sn, params := params }
  (.ok { ruleType := rule_type, address := address, applied := true },
   { st with conditional_formats := st.conditional_formats ++ [cf] })

/-- Payload of `set_data_validation`. -/
structure DVInfo where
  validationType : String
  address : PyVal
  applied : Bool
deriving Repr, DecidableEq

/-- Model of `ExcelSimulator.set_data_validation`: every existing record for
the same `(address, sheet)` pair is filtered out before the new record is
appended. -/
def setDataValidation (validation_type : String) (address : PyVal) (sheet_name : PyVal)
    (params : List (String × PyVal)) (st : SimState) : ToolResult DVInfo × SimState :=
  let sn := pyOr sheet_name (PyVal.vstr st.active_sheet)
  let dv : DataValidation :=
    { validation_type := validation_type, address := address, sheet_name := sn,
      params := params }
  let kept := st.data_validations.filter (fun v => !(v.address == address && v.sheet_name == sn))
  (.ok { validationType := validation_type, address := address, applied := true },
   { st with data_validations := kept ++ [dv] })

/-! ### Dispatch layer (`excel_mcp.py`) — the conditional-format family -/

/-- Model of the fallback branch of `_remap_params`: drop `None` values and
convert each camelCase key to snake_case. -/
def camelToSnake (k : String) : String :=
  String.mk (k.data.enum.foldl (fun acc p =>
    acc ++ (if p.2.isUpper && decide (0 < p.1) then [Char.ofNat 95] else []) ++ [p.2.toLower]) [])

/-- Model of `_remap_params`: with an explicit rename table, listed names
are renamed and the rest pass through untransformed; with no table, the
generic camelCase→snake_case transform applies.  `None`-valued arguments are
dropped in both branches. -/
def remapParams (params : List (String × PyVal)) (remap : Option (List (String × String))) :
    List (String × PyVal) :=
  match remap with
  | none => params.foldl (fun acc kv =>
      if kv.2 = PyVal.vnone then acc else dictInsert (camelToSnake kv.1) kv.2 acc) []
  | some table => params.foldl (fun acc kv =>
      if kv.2 = PyVal.vnone then acc else dictInsert (dictGetD kv.1 kv.1 table) kv.2 acc) []

/-- Python `d.pop(k, default)`: the value (or default) and the map without
the key. -/
def dictPop (k : String) (dflt : α) (d : List (String × α)) : α × List (String × α) :=
  (dictGetD k dflt d, dictErase k d)

/-- The decomposed conditional-format tool names: the `_TOOL_ROUTES` entries
routed to `add_conditional_format` (all with `remap = None`). -/
def cfTools : List String :=
  ["add_color_scale", "add_data_bar", "add_cell_value_format",
   "add_top_bottom_format", "add_contains_text_format", "add_custom_format"]

/-- Model of the `_dispatch` branch for decomposed conditional-format tools:
derive the rule type with `tool_name.replace("add_", "")`, remap the
parameters with the route's (absent) rename table, pop `address` and
`sheet_name`, and invoke the generic simulator method. -/
def dispatchAddConditionalFormat (toolName : String) (params : List (String × PyVal))
    (st : SimState) : ToolResult CFInfo × SimState :=
  let ruleType := pyReplace toolName "add_" ""
  let pyParams := remapParams params none
  let (address, p1) := dictPop "address" (PyVal.vstr "") pyParams
  let (sheetName, p2) := dictPop "sheet_name" PyVal.vnone p1
  addConditionalFormat ruleType address sheetName p2 st

/-! ### Operation sequences and invariants used by the claims -/

/-- One invocation of a sheet-collection operation, with its arguments. -/
inductive SheetOp where
  | create (name : String)
  | delete (name : String)
  | rename (current_name new_name : String)
  | activate (name : String)
  | copy (name : String) (new_name : Option String)
deriving Repr, DecidableEq

/-- Run one sheet operation for its state effect. -/
def applySheetOp : SheetOp → SimState → SimState
  | .create n, st => (createSheet n st).2
  | .delete n, st => (deleteSheet n st).2
  | .rename a b, st => (renameSheet a b st).2
  | .activate n, st => (activateSheet n st).2
  | .copy n nn, st => (copySheet n nn st).2

/-- Run a sequence of sheet operations left to right. -/
def applySheetOps (ops : List SheetOp) (st : SimState) : SimState :=
  ops.foldl (fun s op => applySheetOp op s) st

/-- The workbook sheet invariant: at least one sheet, unique sheet names,
and an active-sheet pointer naming an existing sheet. -/
def workbookInv (st : SimState) : Prop :=
  st.sheets ≠ [] ∧ (dictKeys st.sheets).Nodup ∧ st.active_sheet ∈ dictKeys st.sheets

/-- One invocation of `set_data_validation`, with its arguments. -/
structure DVCall where
  validation_type : String
  address : PyVal
  sheet_name : PyVal
  params : List (String × PyVal)
deriving Repr, DecidableEq

/-- Run one `set_data_validation` call for its state effect. -/
def applyDV (c : DVCall) (st : SimState) : SimState :=
  (setDataValidation c.validation_type c.address c.sheet_name c.params st).2

/-- Run a sequence of `set_data_validation` calls left to right. -/
def applyDVs (calls : List DVCall) (st : SimState) : SimState :=
  calls.foldl (fun s c => applyDV c s) st

/-- The deduplication key of a data-validation record. -/
def dvKey (v : DataValidation) : PyVal × PyVal := (v.address, v.sheet_name)

/-- A workbook whose only sheet holds the single cell `A1 = "hello"`. -/
def helloState : SimState :=
  { sheets := [("Sheet1", { name := "Sheet1", cells := [("A1", PyVal.vstr "hello")] })],
    active_sheet := "Sheet1" }

/-! ## Lemmas about the dict model -/

theorem dictGet_insert_self (k : String) (v : α) (d : List (String × α)) :
    dictGet k (dictInsert k v d) = some v := by
  induction d with
  | nil => simp [dictInsert, dictGet]
  | cons kv rest ih =>
    by_cases h : kv.1 = k <;> simp [dictInsert, dictGet, h, ih]

theorem dictGet_insert_ne (h : k' ≠ k) (v : α) (d : List (String × α)) :
    dictGet k' (dictInsert k v d) = dictGet k' d := by
  induction d with
  | nil => simp [dictInsert, dictGet, Ne.symm h]
  | cons kv rest ih =>
    by_cases hk : kv.1 = k
    · subst hk
      simp [dictInsert, dictGet, Ne.symm h]
    · by_cases hk' : kv.1 = k' <;> simp [dictInsert, dictGet, hk, hk', h, Ne.symm h, ih]

theorem mem_dictKeys_iff (k : String) (d : List (String × α)) :
    k ∈ dictKeys d ↔ (dictGet k d).isSome := by
  induction d with
  | nil => simp [dictKeys, dictGet]
  | cons kv rest ih =>
    by_cases h : kv.1 = k
    · simp [dictKeys, dictGet, h]
    · simp [dictKeys, dictGet, h, Ne.symm h] at ih ⊢
      exact ih

theorem dictKeys_insert_of_mem {d : List (String × α)} (h : k ∈ dictKeys d) (v : α) :
    dictKeys (dictInsert k v d) = dictKeys d := by
  induction d with
  | nil => simp [dictKeys] at h
  | cons kv rest ih =>
    by_cases hk : kv.1 = k
    · simp [dictInsert, dictKeys, hk]
    · have hc : k ∈ kv.1 :: dictKeys rest := h
      have h1 : k ∈ dictKeys rest := by
        rcases List.mem_cons.mp hc with h1 | h1
        · exact absurd h1.symm hk
        · exact h1
      simp [dictInsert, dictKeys, hk]
      simpa [dictKeys] using ih h1

theorem dictKeys_insert_of_not_mem {d : List (String × α)} (h : k ∉ dictKeys d) (v : α) :
    dictKeys (dictInsert k v d) = dictKeys d ++ [k] := by
  induction d with
  | nil => simp [dictInsert, dictKeys]
  | cons kv rest ih =>
    have h1 : kv.1 ≠ k := fun he => h (show k ∈ kv.1 :: dictKeys rest from he ▸ List.mem_cons_self kv.1 (dictKeys rest))
    have h2 : k ∉ dictKeys rest := fun hm => h (show k ∈ kv.1 :: dictKeys rest from List.mem_cons_of_mem _ hm)
    simp [dictInsert, dictKeys, h1]
    simpa [dictKeys] using ih h2

theorem dictKeys_erase (k : String) (d : List (String × α)) :
    dictKeys (dictErase k d) = (dictKeys d).erase k := by
  induction d with
  | nil => simp [dictErase, dictKeys]
  | cons kv rest ih =>
    by_cases h : kv.1 = k
    · simp [dictErase, dictKeys, h, List.erase_cons]
    · simp [dictErase, dictKeys, h, List.erase_cons]
      simpa [dictKeys] using ih

theorem dictKeys_length (d : List (String × α)) : (dictKeys d).length = d.length := by
  simp [dictKeys]

theorem data_mk (l : List Char) : (String.mk l).data = l := rfl

/-! ## Character-class and numeral lemmas -/

theorem uint32_le_iff (a b : UInt32) : a ≤ b ↔ a.toNat ≤ b.toNat := by
  rw [UInt32.le_def, BitVec.le_def]
  exact Iff.rfl

theorem toUpper_eq_self {c : Char} (h : c.toNat < 97) : c.toUpper = c := by
  simp [Char.toUpper]
  intro h1 h2
  omega

theorem isAlpha_of_upper {c : Char} (h1 : 65 ≤ c.toNat) (h2 : c.toNat ≤ 90) :
    c.isAlpha = true := by
  simp [Char.isAlpha, Char.isUpper, Char.isLower, uint32_le_iff, Char.toNat, UInt32.size] at *
  omega

theorem not_isAlpha_of_digit {c : Char} (h1 : 48 ≤ c.toNat) (h2 : c.toNat ≤ 57) :
    c.isAlpha = false := by
  simp [Char.isAlpha, Char.isUpper, Char.isLower, uint32_le_iff, Char.toNat, UInt32.size] at *
  omega

theorem isDigit_of_digit {c : Char} (h1 : 48 ≤ c.toNat) (h2 : c.toNat ≤ 57) :
    c.isDigit = true := by
  simp [Char.isDigit, uint32_le_iff, Char.toNat, UInt32.size] at *
  omega

theorem upperChar_toNat : ∀ r : Nat, r < 26 → (Char.ofNat (65 + r)).toNat = 65 + r := by
  decide

theorem digitChar_toNat : ∀ d : Nat, d < 10 → (Char.ofNat (48 + d)).toNat = 48 + d := by
  decide

theorem indexToColAux_chars (m : Nat) : ∀ c ∈ indexToColAux m, 65 ≤ c.toNat ∧ c.toNat ≤ 90 := by
  induction m using Nat.strong_induction_on with
  | _ m ih =>
    rw [indexToColAux]
    split
    · simp
    · rename_i hm
      have hlt : (m - 1) / 26 < m :=
        Nat.lt_of_le_of_lt (Nat.div_le_self _ _) (Nat.sub_lt (Nat.pos_of_ne_zero hm) Nat.one_pos)
      have hmod : (m - 1) % 26 < 26 := Nat.mod_lt _ (by norm_num)
      intro c hc
      rcases List.mem_append.mp hc with h | h
      · exact ih _ hlt c h
      · simp at h
        subst h
        rw [upperChar_toNat _ hmod]
        omega

theorem indexToColAux_foldl (m : Nat) : ∀ a : Int,
    (indexToColAux m).foldl (fun acc c => acc * 26 + ((c.toUpper.toNat : Int) - 65 + 1)) a
      = a * 26 ^ (indexToColAux m).length + m := by
  induction m using Nat.strong_induction_on with
  | _ m ih =>
    intro a
    rw [indexToColAux]
    split
    · rename_i hm
      subst hm
      simp
    · rename_i hm
      have hlt : (m - 1) / 26 < m :=
        Nat.lt_of_le_of_lt (Nat.div_le_self _ _) (Nat.sub_lt (Nat.pos_of_ne_zero hm) Nat.one_pos)
      have hmod : (m - 1) % 26 < 26 := Nat.mod_lt _ (by norm_num)
      have htn : (Char.ofNat (65 + (m - 1) % 26)).toNat = 65 + (m - 1) % 26 :=
        upperChar_toNat _ hmod
      have hup : (Char.ofNat (65 + (m - 1) % 26)).toUpper = Char.ofNat (65 + (m - 1) % 26) :=
        toUpper_eq_self (by rw [htn]; omega)
      rw [List.foldl_append, ih _ hlt a]
      simp only [List.foldl_cons, List.foldl_nil, hup, htn, List.length_append,
        List.length_cons, List.length_nil]
      have hm1 : 1 ≤ m := Nat.pos_of_ne_zero hm
      have key : ((65 + (m - 1) % 26 : Nat) : Int) - 65 + 1
          = (m : Int) - 26 * (((m - 1) / 26 : Nat) : Int) := by
        push_cast
        omega
      rw [key, pow_succ]
      ring

theorem colToIndex_indexToCol (n : Nat) : colToIndex (indexToCol (n : Int)) = n := by
  have h1 : ((n : Int) + 1).toNat = n + 1 := by omega
  rw [indexToCol, colToIndex, h1, data_mk]
  rw [indexToColAux_foldl (n + 1) 0]
  push_cast
  ring

theorem colFold_nonneg (l : List Char) (hv : ∀ c ∈ l, 65 ≤ c.toNat ∧ c.toNat ≤ 90) :
    ∀ a : Int, 0 ≤ a →
      0 ≤ l.foldl (fun acc c => acc * 26 + ((c.toUpper.toNat : Int) - 65 + 1)) a := by
  induction l with
  | nil => intro a ha; simpa using ha
  | cons c t ih =>
    intro a ha
    have hc := hv c (List.mem_cons_self c t)
    have hup : c.toUpper = c := toUpper_eq_self (by omega)
    simp only [List.foldl, hup]
    refine ih (fun x hx => hv x (List.mem_cons_of_mem _ hx)) _ ?_
    have : (1 : Int) ≤ (c.toNat : Int) - 65 + 1 := by
      have := hc.1
      omega
    nlinarith

theorem indexToColAux_colFold_inv (l : List Char)
    (hv : ∀ c ∈ l, 65 ≤ c.toNat ∧ c.toNat ≤ 90) :
    indexToColAux (l.foldl
      (fun acc c => acc * 26 + ((c.toUpper.toNat : Int) - 65 + 1)) 0).toNat = l := by
  induction l using List.reverseRecOn with
  | nil =>
    show indexToColAux ((0 : Int)).toNat = []
    rw [indexToColAux]
    simp
  | append_singleton t c ih =>
    have hvt : ∀ x ∈ t, 65 ≤ x.toNat ∧ x.toNat ≤ 90 :=
      fun x hx => hv x (List.mem_append_left _ hx)
    have hc := hv c (List.mem_append_right _ (List.mem_cons_self c []))
    have hup : c.toUpper = c := toUpper_eq_self (by omega)
    have hF : 0 ≤ t.foldl (fun acc c => acc * 26 + ((c.toUpper.toNat : Int) - 65 + 1)) 0 :=
      colFold_nonneg t hvt 0 le_rfl
    set F := t.foldl (fun acc c => acc * 26 + ((c.toUpper.toNat : Int) - 65 + 1)) 0 with hFdef
    rw [List.foldl_append]
    simp only [List.foldl, hup, ← hFdef]
    have hkey : (F * 26 + ((c.toNat : Int) - 65 + 1)).toNat
        = F.toNat * 26 + (c.toNat - 64) := by
      have := hc.1
      omega
    rw [hkey, indexToColAux]
    have hpos : F.toNat * 26 + (c.toNat - 64) ≠ 0 := by
      have := hc.1
      omega
    rw [dif_neg hpos]
    have hsub : F.toNat * 26 + (c.toNat - 64) - 1 = F.toNat * 26 + (c.toNat - 65) := by
      have := hc.1
      omega
    have hdiv : (F.toNat * 26 + (c.toNat - 65)) / 26 = F.toNat := by
      have h90 := hc.2
      have h65 := hc.1
      omega
    have hmod : (F.toNat * 26 + (c.toNat - 65)) % 26 = c.toNat - 65 := by
      have h90 := hc.2
      have h65 := hc.1
      omega
    rw [hsub, hdiv, hmod, ih hvt]
    have : 65 + (c.toNat - 65) = c.toNat := by
      have := hc.1
      omega
    rw [this, Char.ofNat_toNat]

theorem indexToCol_colToIndex (s : String)
    (hv : ∀ c ∈ s.data, 65 ≤ c.toNat ∧ c.toNat ≤ 90) :
    indexToCol (colToIndex s) = s := by
  rw [colToIndex, indexToCol]
  have h1 : (s.data.foldl (fun acc c => acc * 26 + ((c.toUpper.toNat : Int) - 65 + 1)) 0
      - 1 + 1) = s.data.foldl (fun acc c => acc * 26 + ((c.toUpper.toNat : Int) - 65 + 1)) 0 := by
    ring
  rw [h1, indexToColAux_colFold_inv s.data hv]

theorem decDigits_chars (n : Nat) : ∀ c ∈ decDigits n, 48 ≤ c.toNat ∧ c.toNat ≤ 57 := by
  induction n using Nat.strong_induction_on with
  | _ n ih =>
    rw [decDigits]
    split
    · rename_i hn
      intro c hc
      simp at hc
      subst hc
      rw [digitChar_toNat _ hn]
      omega
    · rename_i hn
      have hlt : n / 10 < n := Nat.div_lt_self (by omega) (by norm_num)
      have hmod : n % 10 < 10 := Nat.mod_lt _ (by norm_num)
      intro c hc
      rcases List.mem_append.mp hc with h | h
      · exact ih _ hlt c h
      · simp at h
        subst h
        rw [digitChar_toNat _ hmod]
        omega

theorem decDigits_ne_nil (n : Nat) : decDigits n ≠ [] := by
  rw [decDigits]
  split <;> simp

theorem decDigits_foldl (n : Nat) : ∀ a : Nat,
    (decDigits n).foldl (fun acc c => acc * 10 + (c.toNat - 48)) a
      = a * 10 ^ (decDigits n).length + n := by
  induction n using Nat.strong_induction_on with
  | _ n ih =>
    intro a
    rw [decDigits]
    split
    · rename_i hn
      simp only [List.foldl, List.length_cons, List.length_nil]
      rw [digitChar_toNat _ hn]
      simp [pow_succ]
      all_goals omega
    · rename_i hn
      have hlt : n / 10 < n := Nat.div_lt_self (by omega) (by norm_num)
      have hmod : n % 10 < 10 := Nat.mod_lt _ (by norm_num)
      rw [List.foldl_append, ih _ hlt a]
      simp only [List.foldl, List.length_append, List.length_cons, List.length_nil]
      rw [digitChar_toNat _ hmod]
      have hdm : 10 * (n / 10) + n % 10 = n := Nat.div_add_mod n 10
      rw [pow_succ]
      have : (48 : Nat) + n % 10 - 48 = n % 10 := by omega
      rw [this]
      ring_nf
      all_goals omega

theorem digitsToNat_decDigits (n : Nat) : digitsToNat (decDigits n) = n := by
  rw [digitsToNat, decDigits_foldl n 0]
  simp

/-! ## Parsing generated cell references -/

theorem mk_data (s : String) : String.mk s.data = s := rfl

theorem map_eq_self_of {f : α → α} {l : List α} (h : ∀ a ∈ l, f a = a) : l.map f = l := by
  induction l with
  | nil => rfl
  | cons a t ih =>
    simp only [List.map_cons]
    rw [h a (List.mem_cons_self a t), ih (fun x hx => h x (List.mem_cons_of_mem _ hx))]

theorem takeWhile_append_of_all {p : α → Bool} {l1 l2 : List α} (h : ∀ a ∈ l1, p a = true) :
    (l1 ++ l2).takeWhile p = l1 ++ l2.takeWhile p := by
  induction l1 with
  | nil => simp
  | cons a t ih =>
    simp only [List.cons_append, List.takeWhile_cons, h a (List.mem_cons_self a t)]
    rw [ih (fun x hx => h x (List.mem_cons_of_mem _ hx))]
    simp

theorem dropWhile_append_of_all {p : α → Bool} {l1 l2 : List α} (h : ∀ a ∈ l1, p a = true) :
    (l1 ++ l2).dropWhile p = l2.dropWhile p := by
  induction l1 with
  | nil => simp
  | cons a t ih =>
    simp only [List.cons_append, List.dropWhile_cons, h a (List.mem_cons_self a t)]
    exact ih (fun x hx => h x (List.mem_cons_of_mem _ hx))

theorem takeWhile_eq_self_of_all {p : α → Bool} {l : List α} (h : ∀ a ∈ l, p a = true) :
    l.takeWhile p = l := by
  have h2 : (l ++ ([] : List α)).takeWhile p = l ++ ([] : List α).takeWhile p :=
    takeWhile_append_of_all h
  simpa using h2

theorem indexToCol_nat_data (c : Nat) :
    (indexToCol (c : Int)).data = indexToColAux (c + 1) := by
  rw [indexToCol]
  have h1 : ((c : Int) + 1).toNat = c + 1 := by omega
  rw [h1, data_mk]

theorem indexToCol_nat_ne_nil (c : Nat) : (indexToCol (c : Int)).data ≠ [] := by
  rw [indexToCol_nat_data, indexToColAux]
  simp

theorem intToStr_ofNat (r : Nat) : intToStr (r : Int) = natToStr r := by
  rw [intToStr, if_neg (by omega : ¬ (r : Int) < 0)]
  norm_num

theorem cellRef_nat_data (c r : Nat) :
    (cellRef (c : Int) (r : Int)).data = (indexToCol (c : Int)).data ++ decDigits r := by
  rw [cellRef, intToStr_ofNat, String.data_append, natToStr, data_mk]

theorem parseCell_cellRef (c r : Nat) :
    parseCell (cellRef (c : Int) (r : Int)) = .ok (indexToCol (c : Int), r) := by
  have hcol : ∀ ch ∈ (indexToCol (c : Int)).data, 65 ≤ ch.toNat ∧ ch.toNat ≤ 90 := by
    rw [indexToCol_nat_data]
    exact indexToColAux_chars (c + 1)
  have hcolAlpha : ∀ ch ∈ (indexToCol (c : Int)).data, ch.isAlpha = true :=
    fun ch hch => isAlpha_of_upper (hcol ch hch).1 (hcol ch hch).2
  have hdig := decDigits_chars r
  rw [parseCell, cellRef_nat_data]
  rcases hd : decDigits r with _ | ⟨d, t⟩
  · exact absurd hd (decDigits_ne_nil r)
  · have hdmem : d ∈ decDigits r := by rw [hd]; exact List.mem_cons_self d t
    have hdfact := hdig d hdmem
    have hdNotAlpha : d.isAlpha = false := not_isAlpha_of_digit hdfact.1 hdfact.2
    have htake : ((indexToCol (c : Int)).data ++ d :: t).takeWhile Char.isAlpha
        = (indexToCol (c : Int)).data := by
      rw [takeWhile_append_of_all hcolAlpha]
      simp [List.takeWhile_cons, hdNotAlpha]
    have hdrop : ((indexToCol (c : Int)).data ++ d :: t).dropWhile Char.isAlpha = d :: t := by
      rw [dropWhile_append_of_all hcolAlpha]
      simp [List.dropWhile_cons, hdNotAlpha]
    have hdigAll : ∀ x ∈ d :: t, x.isDigit = true := by
      intro x hx
      have hxmem : x ∈ decDigits r := by rw [hd]; exact hx
      exact isDigit_of_digit (hdig x hxmem).1 (hdig x hxmem).2
    simp only [htake, hdrop, takeWhile_eq_self_of_all hdigAll]
    rw [if_neg]
    · have hmap : (indexToCol (c : Int)).data.map Char.toUpper = (indexToCol (c : Int)).data :=
        map_eq_self_of (fun x hx => toUpper_eq_self (by have := (hcol x hx).2; omega))
      rw [hmap, mk_data]
      have : digitsToNat (d :: t) = r := by rw [← hd]; exact digitsToNat_decDigits r
      rw [this]
    · have hne := indexToCol_nat_ne_nil c
      simp [List.isEmpty_iff, hne]

theorem cellRef_nat_inj {c r c' r' : Nat}
    (h : cellRef (c : Int) (r : Int) = cellRef (c' : Int) (r' : Int)) : c = c' ∧ r = r' := by
  have h1 : (Except.ok (indexToCol (c : Int), r) : Except PyErr (String × Nat))
      = .ok (indexToCol (c' : Int), r') := by
    rw [← parseCell_cellRef, ← parseCell_cellRef, h]
  have h2 : indexToCol (c : Int) = indexToCol (c' : Int) ∧ r = r' := by
    have := Except.ok.inj h1
    exact ⟨congrArg Prod.fst this, congrArg Prod.snd this⟩
  refine ⟨?_, h2.2⟩
  have hc : (c : Int) = (c' : Int) := by
    rw [← colToIndex_indexToCol c, ← colToIndex_indexToCol c', h2.1]
  exact_mod_cast hc

theorem splitFirst_eq_none {sep : Char} {l : List Char} (h : ∀ c ∈ l, c ≠ sep) :
    splitFirst sep l = none := by
  induction l with
  | nil => rfl
  | cons c t ih =>
    rw [splitFirst, if_neg (h c (List.mem_cons_self c t))]
    rw [ih (fun x hx => h x (List.mem_cons_of_mem _ hx))]

theorem splitFirst_append {sep : Char} {l1 l2 : List Char} (h : ∀ c ∈ l1, c ≠ sep) :
    splitFirst sep (l1 ++ sep :: l2) = some (l1, l2) := by
  induction l1 with
  | nil => simp [splitFirst]
  | cons c t ih =>
    rw [List.cons_append, splitFirst, if_neg (h c (List.mem_cons_self c t))]
    rw [ih (fun x hx => h x (List.mem_cons_of_mem _ hx))]

theorem cellRef_nat_chars (c r : Nat) : ∀ ch ∈ (cellRef (c : Int) (r : Int)).data,
    (65 ≤ ch.toNat ∧ ch.toNat ≤ 90) ∨ (48 ≤ ch.toNat ∧ ch.toNat ≤ 57) := by
  rw [cellRef_nat_data]
  intro ch hch
  rcases List.mem_append.mp hch with h | h
  · left
    rw [indexToCol_nat_data] at h
    exact indexToColAux_chars (c + 1) ch h
  · right
    exact decDigits_chars r ch h

theorem pyUpper_cellRef (c r : Nat) :
    pyUpper (cellRef (c : Int) (r : Int)) = cellRef (c : Int) (r : Int) := by
  rw [pyUpper]
  have : (cellRef (c : Int) (r : Int)).data.map Char.toUpper = (cellRef (c : Int) (r : Int)).data := by
    refine map_eq_self_of (fun x hx => toUpper_eq_self ?_)
    rcases cellRef_nat_chars c r x hx with h | h <;> omega
  rw [this, mk_data]

theorem parseRange_cellRefs (c r c2 r2 : Nat) :
    parseRange (cellRef (c : Int) (r : Int) ++ ":" ++ cellRef (c2 : Int) (r2 : Int))
      = (none, cellRef (c : Int) (r : Int), cellRef (c2 : Int) (r2 : Int)) := by
  have hdata : (cellRef (c : Int) (r : Int) ++ ":" ++ cellRef (c2 : Int) (r2 : Int)).data
      = (cellRef (c : Int) (r : Int)).data ++ ':' :: (cellRef (c2 : Int) (r2 : Int)).data := by
    rw [String.data_append, String.data_append]
    simp [show (":" : String).data = [':'] from rfl]
  have hchar1 := cellRef_nat_chars c r
  have hchar2 := cellRef_nat_chars c2 r2
  have hbang : ('!').toNat = 33 := rfl
  have hcolonN : (':').toNat = 58 := rfl
  have hNoBang : ∀ x ∈ (cellRef (c : Int) (r : Int)).data
      ++ ':' :: (cellRef (c2 : Int) (r2 : Int)).data, x ≠ '!' := by
    intro x hx he
    subst he
    rcases List.mem_append.mp hx with h | h
    · rcases hchar1 _ h with h' | h' <;> omega
    · rcases List.mem_cons.mp h with h' | h'
      · exact absurd h' (by decide)
      · rcases hchar2 _ h' with h' | h' <;> omega
  have hNoColon : ∀ x ∈ (cellRef (c : Int) (r : Int)).data, x ≠ ':' := by
    intro x hx he
    subst he
    rcases hchar1 _ hx with h' | h' <;> omega
  rw [parseRange, hdata]
  rw [splitFirst_eq_none hNoBang]
  simp only [splitFirst_append hNoColon, mk_data, pyUpper_cellRef]

/-! ## Write/read lemmas for the grid fold of `set_range_values` -/

theorem cellRef_add_inj {base ci cj ri rj : Nat}
    (h : cellRef ((base : Int) + ci) ri = cellRef ((base : Int) + cj) rj) :
    ci = cj ∧ ri = rj := by
  have h' : cellRef ((base + ci : Nat) : Int) ((ri : Nat) : Int)
      = cellRef ((base + cj : Nat) : Int) ((rj : Nat) : Int) := by
    push_cast
    exact h
  have := cellRef_nat_inj h'
  omega

theorem rowWrite_nil (b ri : Int) (cs : List (String × PyVal)) : rowWrite b ri [] cs = cs := by
  simp [rowWrite, List.enum]

theorem rowWrite_concat (b ri : Int) (row : List PyVal) (v : PyVal)
    (cs : List (String × PyVal)) :
    rowWrite b ri (row ++ [v]) cs
      = dictInsert (cellRef (b + row.length) ri) v (rowWrite b ri row cs) := by
  rw [rowWrite, rowWrite, List.enum_append, List.foldl_append]
  simp [List.enumFrom]

theorem gridWrite_nil (b r0 : Int) (cs : List (String × PyVal)) : gridWrite b r0 [] cs = cs := by
  simp [gridWrite, List.enum]

theorem gridWrite_concat (b r0 : Int) (values : List (List PyVal)) (row : List PyVal)
    (cs : List (String × PyVal)) :
    gridWrite b r0 (values ++ [row]) cs
      = rowWrite b (r0 + values.length) row (gridWrite b r0 values cs) := by
  rw [gridWrite, gridWrite, List.enum_append, List.foldl_append]
  simp [List.enumFrom]

theorem rowWrite_get_miss (base ri : Nat) (row : List PyVal) (cs : List (String × PyVal))
    (key : String) (h : ∀ ci : Nat, ci < row.length → key ≠ cellRef ((base : Int) + ci) ri) :
    dictGet key (rowWrite (base : Int) (ri : Int) row cs) = dictGet key cs := by
  induction row using List.reverseRecOn with
  | nil => rw [rowWrite_nil]
  | append_singleton t v ih =>
    rw [rowWrite_concat]
    rw [dictGet_insert_ne (h t.length (by simp))]
    exact ih (fun ci hci => h ci (by simp; omega))

theorem rowWrite_get_hit (base ri : Nat) (row : List PyVal) (cs : List (String × PyVal))
    (ci : Nat) (hci : ci < row.length) :
    dictGet (cellRef ((base : Int) + ci) ri) (rowWrite (base : Int) (ri : Int) row cs)
      = some (row.getD ci PyVal.vnone) := by
  induction row using List.reverseRecOn with
  | nil => exact absurd hci (by simp)
  | append_singleton t v ih =>
    rw [rowWrite_concat]
    rcases Nat.lt_succ_iff_lt_or_eq.mp (by simpa using hci) with hlt | heq
    · rw [dictGet_insert_ne (fun he => by have := (cellRef_add_inj he).1; omega)]
      rw [ih hlt, List.getD_append t [v] PyVal.vnone ci hlt]
    · subst heq
      rw [dictGet_insert_self]
      simp [List.getD]

theorem gridWrite_get_miss (base row0 : Nat) (values : List (List PyVal))
    (cs : List (String × PyVal)) (key : String)
    (h : ∀ ri ci : Nat, ri < values.length → key ≠ cellRef ((base : Int) + ci) ((row0 : Int) + ri)) :
    dictGet key (gridWrite (base : Int) (row0 : Int) values cs) = dictGet key cs := by
  induction values using List.reverseRecOn with
  | nil => rw [gridWrite_nil]
  | append_singleton t row ih =>
    rw [gridWrite_concat]
    have hcast : ((row0 : Int) + (t.length : Int)) = ((row0 + t.length : Nat) : Int) := by
      push_cast
      ring
    rw [hcast]
    rw [rowWrite_get_miss base (row0 + t.length) row _ key ?hmiss]
    · exact ih (fun ri ci hri => h ri ci (by simp; omega))
    case hmiss =>
      intro ci _ he
      rw [← hcast] at he
      exact h t.length ci (by simp) he

theorem gridWrite_get (base row0 : Nat) (values : List (List PyVal))
    (cs : List (String × PyVal)) (ri ci : Nat) (hri : ri < values.length)
    (hci : ci < (values.getD ri []).length) :
    dictGet (cellRef ((base : Int) + ci) ((row0 : Int) + ri))
        (gridWrite (base : Int) (row0 : Int) values cs)
      = some ((values.getD ri []).getD ci PyVal.vnone) := by
  induction values using List.reverseRecOn with
  | nil => exact absurd hri (by simp)
  | append_singleton t row ih =>
    rw [gridWrite_concat]
    have hcast : ((row0 : Int) + (t.length : Int)) = ((row0 + t.length : Nat) : Int) := by
      push_cast
      ring
    rcases Nat.lt_succ_iff_lt_or_eq.mp (by simpa using hri) with hlt | heq
    · have hget : (t ++ [row]).getD ri ([] : List PyVal) = t.getD ri [] :=
        List.getD_append t [row] [] ri hlt
      rw [hget] at hci ⊢
      rw [hcast, rowWrite_get_miss base (row0 + t.length) row _ _ ?hmiss2]
      · exact ih hlt hci
      case hmiss2 =>
        intro cj _ he
        have hcast2 : ((row0 : Int) + (ri : Int)) = ((row0 + ri : Nat) : Int) := by
          push_cast
          ring
        rw [hcast2] at he
        have := (cellRef_add_inj he).2
        omega
    · subst heq
      have hget : (t ++ [row]).getD t.length ([] : List PyVal) = row := by
        simp [List.getD]
      rw [hget] at hci ⊢
      rw [hcast, rowWrite_get_hit base (row0 + t.length) row _ ci hci]

theorem pyRangeIncl_nat (a n : Nat) (hn : 1 ≤ n) :
    pyRangeIncl (a : Int) ((a + n - 1 : Nat) : Int)
      = (List.range n).map (fun i : Nat => ((a : Int) + (i : Int))) := by
  rw [pyRangeIncl, pyRange]
  have h1 : ((a + n - 1 : Nat) : Int) + 1 - (a : Int) = (n : Int) := by omega
  rw [h1]
  norm_num

theorem isEmpty_false_of_ne {s : String} (h : s ≠ "") : s.isEmpty = false := by
  cases he : s.isEmpty
  · rfl
  · exact absurd ((String.isEmpty_iff s).mp he) h

theorem pyOrOpt_some {S : String} (hS : S ≠ "") (y : Option String) :
    pyOrOpt (some S) y = some S := by
  rw [pyOrOpt, isEmpty_false_of_ne hS]
  rfl

theorem pyOrStr_some {S : String} (hS : S ≠ "") (y : String) : pyOrStr (some S) y = S := by
  rw [pyOrStr, isEmpty_false_of_ne hS]
  rfl

/-! ## Claim theorems -/

/-- C1: the claim says a malformed address given to `get_range_values` comes
back as a failure envelope and never escapes as a language-level exception
across the dispatch boundary.  The code violates this: `_parse_cell` raises
`ValueError` for `"1A"`, `get_range_values` does not catch it, and
`_dispatch` (excel_mcp.py) has no handler either, so the exception escapes —
here the model returns `Except.error` (an escaped exception) rather than a
`ToolResult`. -/
theorem c1_malformed_reference_escapes :
    getRangeValues "1A" none initState = .error "Invalid cell reference: 1A" := by
  rfl

/-- C3: the column-letter/index conversions are mutually inverse —
`indexToColumn (columnToIndex s) = s` for every non-empty string of
uppercase letters `A`–`Z` (in particular everything up to `"ZZ"`), and
`columnToIndex (indexToColumn n) = n` for every `n ≥ 0` (in particular
`0 ≤ n ≤ 701`). -/
theorem c3_column_conversions_inverse :
    (∀ s : String, s.data ≠ [] → (∀ ch ∈ s.data, 65 ≤ ch.toNat ∧ ch.toNat ≤ 90) →
      indexToCol (colToIndex s) = s)
    ∧ (∀ n : Nat, colToIndex (indexToCol (n : Int)) = (n : Int)) := by
  constructor
  · intro s _ hv
    exact indexToCol_colToIndex s hv
  · exact colToIndex_indexToCol

/-- Witness for C3 at the concrete inputs `"ZZ"` and `701`. -/
theorem c3_column_conversions_inverse_witness :
    indexToCol (colToIndex "ZZ") = "ZZ"
    ∧ colToIndex (indexToCol ((701 : Nat) : Int)) = ((701 : Nat) : Int) :=
  ⟨c3_column_conversions_inverse.1 "ZZ" (by decide) (by decide),
   c3_column_conversions_inverse.2 701⟩

/-- C10: `define_named_range` never fails on a name collision — for every
state it returns a success envelope and the named-range dict afterwards maps
the name to the freshly built record (silently replacing any existing one),
whereas `create_sheet` on an existing name returns a `NameCollision`-style
failure envelope and leaves the state unchanged. -/
theorem c10_define_named_range_never_collides :
    (∀ (st : SimState) (name addr : String) (sh : Option String),
      (defineNamedRange name addr sh st).1 = .ok ⟨name, addr, ""⟩
      ∧ dictGet name (defineNamedRange name addr sh st).2.named_ranges
          = some ⟨name, addr, pyOrStr sh st.active_sheet, ""⟩)
    ∧ (∀ (st : SimState) (name : String), (dictGet name st.sheets).isSome = true →
        createSheet name st = (.err ("Sheet \x27" ++ name ++ "\x27 already exists"), st)) := by
  constructor
  · intro st name addr sh
    exact ⟨rfl, dictGet_insert_self name _ st.named_ranges⟩
  · intro st name h
    rw [createSheet, if_pos h]

/-- Witness for C10: redefining an existing named range succeeds and
replaces it; creating the already-present sheet `"Sheet1"` fails. -/
theorem c10_define_named_range_never_collides_witness :
    ((defineNamedRange "n" "B2" none ((defineNamedRange "n" "A1" none initState).2)).1
        = .ok ⟨"n", "B2", ""⟩
      ∧ dictGet "n" ((defineNamedRange "n" "B2" none
          ((defineNamedRange "n" "A1" none initState).2)).2).named_ranges
        = some ⟨"n", "B2", "Sheet1", ""⟩)
    ∧ createSheet "Sheet1" initState
        = (.err "Sheet \x27Sheet1\x27 already exists", initState) := by
  constructor
  · have h := c10_define_named_range_never_collides.1
      ((defineNamedRange "n" "A1" none initState).2) "n" "B2" none
    exact ⟨h.1, h.2⟩
  · exact c10_define_named_range_never_collides.2 initState "Sheet1" (by decide)

/-- C9: `replace_values` matches by case-insensitive substring containment
but substitutes occurrences of the exact-case `find` string.  On any
single-cell sheet the count and the stored value follow exactly that rule,
and on the concrete sheet `A1 = "hello"` a search for `"HELLO"` is counted
as one replacement while the stored value stays `"hello"`. -/
theorem c9_replace_case_mismatch :
    (∀ (find repl ref : String) (v : PyVal) (sh : Option String) (st : SimState)
        (sname : String) (sheet : Sheet),
      resolveSheet sh st = .ok (sname, sheet) →
      sheet.cells = [(ref, v)] →
      replaceValues find repl none sh st
        = (if listContains (strLower find).data (strLower (pyStr v)).data then
            (.ok { find := find, replace := repl, replacements := 1 },
             { st with sheets := (dictInsert sname
                 { sheet with cells := [(ref, PyVal.vstr (pyReplace (pyStr v) find repl))] }
                 st.sheets) })
          else
            (.ok { find := find, replace := repl, replacements := 0 },
             { st with sheets := dictInsert sname sheet st.sheets })))
    ∧ replaceValues "HELLO" "bye" none none helloState
        = (.ok { find := "HELLO", replace := "bye", replacements := 1 }, helloState) := by
  constructor
  · intro find repl ref v sh st sname sheet hres hcells
    rw [replaceValues, hres]
    simp only [hcells, List.foldl_cons, List.foldl_nil]
    by_cases hc : listContains (strLower find).data (strLower (pyStr v)).data
    · rw [if_pos hc, if_pos hc]
      simp [dictInsert]
    · rw [if_neg hc, if_neg hc]
      rw [← hcells]
  · rfl

/-- Witness for C9 at a concrete single-cell sheet where the find string
also matches case-sensitively, so the substitution does fire. -/
theorem c9_replace_case_mismatch_witness :
    replaceValues "hello" "bye" none none helloState
      = (.ok { find := "hello", replace := "bye", replacements := 1 },
         { helloState with sheets := (dictInsert "Sheet1"
             { name := "Sheet1", cells := [("A1", PyVal.vstr (pyReplace "hello" "hello" "bye"))] }
             helloState.sheets) }) := by
  have h := c9_replace_case_mismatch.1 "hello" "bye" "A1" (PyVal.vstr "hello") none helloState
    "Sheet1" { name := "Sheet1", cells := [("A1", PyVal.vstr "hello")] } (by rfl) (by rfl)
  rw [h]
  rfl

/-- C8 helper: one `set_data_validation` call keeps the per-(address, sheet)
keys of the validation list pairwise distinct. -/
theorem setDV_preserves_pairwise (vt : String) (a sh : PyVal)
    (ps : List (String × PyVal)) (st : SimState)
    (h : st.data_validations.Pairwise (fun x y => dvKey x ≠ dvKey y)) :
    ((setDataValidation vt a sh ps st).2.data_validations).Pairwise
      (fun x y => dvKey x ≠ dvKey y) := by
  rw [setDataValidation]
  simp only
  rw [List.pairwise_append]
  refine ⟨List.Pairwise.sublist (List.filter_sublist _) h, by simp, ?_⟩
  intro x hx y hy
  have hmem := List.mem_singleton.mp hy
  subst hmem
  have hpred := (List.mem_filter.mp hx).2
  intro hk
  rw [dvKey, dvKey] at hk
  have h1 : x.address = a := congrArg Prod.fst hk
  have h2 : x.sheet_name = pyOr sh (PyVal.vstr st.active_sheet) := congrArg Prod.snd hk
  rw [h1, h2] at hpred
  simp at hpred

/-- C8 helper: the pairwise-distinct-key property is preserved along any
sequence of `set_data_validation` calls. -/
theorem applyDVs_pairwise (calls : List DVCall) : ∀ st : SimState,
    st.data_validations.Pairwise (fun x y => dvKey x ≠ dvKey y) →
    ((applyDVs calls st).data_validations).Pairwise (fun x y => dvKey x ≠ dvKey y) := by
  induction calls with
  | nil => intro st h; exact h
  | cons c rest ih =>
    intro st h
    exact ih _ (setDV_preserves_pairwise c.validation_type c.address c.sheet_name c.params st h)

/-- C8: after any sequence of `set_data_validation` calls from the initial
workbook the validation list has at most one record per (address, sheet)
key, and two calls on the same `(address, sheet)` with different parameters
leave exactly one record — the second one. -/
theorem c8_validation_dedup :
    (∀ calls : List DVCall,
      ((applyDVs calls initState).data_validations).Pairwise (fun x y => dvKey x ≠ dvKey y))
    ∧ (applyDVs [⟨"list", .vstr "C3", .vnone, [("values", .vstr "a,b")]⟩,
                 ⟨"number", .vstr "C3", .vnone, [("min", .vint 1)]⟩] initState).data_validations
        = [⟨"number", .vstr "C3", .vstr "Sheet1", [("min", .vint 1)]⟩] := by
  constructor
  · intro calls
    exact applyDVs_pairwise calls initState (by simp [initState])
  · rfl

/-- C7: dispatching any decomposed `add_<ruleType>` conditional-format tool
with an argument map equals invoking the generic `add_conditional_format`
directly with the rule type obtained by stripping the `add_` prefix and the
same remapped parameters, `address` and `sheet_name` popped out. -/
theorem c7_conditional_format_decomposition :
    ∀ tool ∈ cfTools, ∀ (params : List (String × PyVal)) (st : SimState),
      dispatchAddConditionalFormat tool params st
        = (let py := remapParams params none
           let ap := dictPop "address" (PyVal.vstr "") py
           let sp := dictPop "sheet_name" PyVal.vnone ap.2
           addConditionalFormat (String.mk (tool.data.drop 4)) ap.1 sp.1 sp.2 st) := by
  intro tool htool params st
  fin_cases htool <;> rfl

/-- Witness for C7 at the concrete tool `add_data_bar` and a concrete
argument map. -/
theorem c7_conditional_format_decomposition_witness :
    dispatchAddConditionalFormat "add_data_bar"
        [("address", PyVal.vstr "A1:A5"), ("sheetName", PyVal.vstr "Sheet1"),
         ("barColor", PyVal.vstr "FF0000")] initState
      = (let py := remapParams [("address", PyVal.vstr "A1:A5"),
           ("sheetName", PyVal.vstr "Sheet1"), ("barColor", PyVal.vstr "FF0000")] none
         let ap := dictPop "address" (PyVal.vstr "") py
         let sp := dictPop "sheet_name" PyVal.vnone ap.2
         addConditionalFormat (String.mk ("add_data_bar".data.drop 4)) ap.1 sp.1 sp.2 initState) :=
  c7_conditional_format_decomposition "add_data_bar" (by decide)
    [("address", PyVal.vstr "A1:A5"), ("sheetName", PyVal.vstr "Sheet1"),
     ("barColor", PyVal.vstr "FF0000")] initState

theorem dictInsert_ne_nil (k : String) (v : α) (d : List (String × α)) :
    dictInsert k v d ≠ [] := by
  cases d with
  | nil => simp [dictInsert]
  | cons kv rest =>
    rw [dictInsert]
    split <;> simp

theorem headD_mem {l : List α} (h : l ≠ []) (d : α) : l.headD d ∈ l := by
  cases l with
  | nil => exact absurd rfl h
  | cons a t => exact List.mem_cons_self a t

theorem nodup_append_singleton {l : List α} {a : α} (h : l.Nodup) (ha : a ∉ l) :
    (l ++ [a]).Nodup := by
  rw [List.nodup_append]
  exact ⟨h, List.nodup_singleton a, fun x hx => by
    simp only [List.mem_singleton]
    intro he
    exact ha (he ▸ hx)⟩

/-- C4 helper: every single sheet operation preserves the workbook
invariant. -/
theorem applySheetOp_inv (op : SheetOp) (st : SimState) (h : workbookInv st) :
    workbookInv (applySheetOp op st) := by
  obtain ⟨hne, hnodup, hactive⟩ := h
  cases op with
  | create n =>
    simp only [applySheetOp, createSheet]
    split
    · exact ⟨hne, hnodup, hactive⟩
    · rename_i hn
      have hnotmem : n ∉ dictKeys st.sheets := by
        rw [mem_dictKeys_iff]
        simpa using hn
      refine ⟨dictInsert_ne_nil _ _ _, ?_, ?_⟩
      · rw [dictKeys_insert_of_not_mem hnotmem]
        exact nodup_append_singleton hnodup hnotmem
      · rw [dictKeys_insert_of_not_mem hnotmem]
        exact List.mem_append_left _ hactive
  | delete n =>
    simp only [applySheetOp, deleteSheet]
    split
    · exact ⟨hne, hnodup, hactive⟩
    · split
      · exact ⟨hne, hnodup, hactive⟩
      · rename_i hn hlen
        have hmem : n ∈ dictKeys st.sheets := by
          rw [mem_dictKeys_iff, Option.isSome_iff_ne_none]
          simpa using hn
        have hkeys : dictKeys (dictErase n st.sheets) = (dictKeys st.sheets).erase n :=
          dictKeys_erase n st.sheets
        have hlen2 : 1 ≤ (dictKeys (dictErase n st.sheets)).length := by
          rw [hkeys, List.length_erase_of_mem hmem, dictKeys_length]
          omega
        have hne2 : dictErase n st.sheets ≠ [] := by
          intro he
          rw [he] at hlen2
          simp [dictKeys] at hlen2
        refine ⟨hne2, ?_, ?_⟩
        · rw [hkeys]
          exact hnodup.erase n
        · by_cases hact : st.active_sheet = n
          · rw [if_pos hact]
            refine headD_mem ?_ _
            intro he
            rw [he] at hlen2
            simp at hlen2
          · rw [if_neg hact]
            rw [hkeys]
            exact (List.mem_erase_of_ne hact).mpr hactive
  | rename a b =>
    simp only [applySheetOp, renameSheet]
    split
    · exact ⟨hne, hnodup, hactive⟩
    · rename_i sheet hga
      split
      · exact ⟨hne, hnodup, hactive⟩
      · rename_i hb
        have hbnot : b ∉ dictKeys st.sheets := by
          rw [mem_dictKeys_iff]
          simpa using hb
        have hbnot2 : b ∉ dictKeys (dictErase a st.sheets) := by
          rw [dictKeys_erase]
          intro hbe
          exact hbnot (List.mem_of_mem_erase hbe)
        have hkeys : dictKeys (dictInsert b { sheet with name := b } (dictErase a st.sheets))
            = (dictKeys st.sheets).erase a ++ [b] := by
          rw [dictKeys_insert_of_not_mem hbnot2, dictKeys_erase]
        refine ⟨dictInsert_ne_nil _ _ _, ?_, ?_⟩
        · rw [hkeys]
          refine nodup_append_singleton (hnodup.erase a) ?_
          intro hbe
          exact hbnot (List.mem_of_mem_erase hbe)
        · by_cases hact : st.active_sheet = a
          · rw [if_pos hact, hkeys]
            exact List.mem_append_right _ (List.mem_singleton.mpr rfl)
          · rw [if_neg hact, hkeys]
            exact List.mem_append_left _ ((List.mem_erase_of_ne hact).mpr hactive)
  | activate n =>
    simp only [applySheetOp, activateSheet]
    split
    · exact ⟨hne, hnodup, hactive⟩
    · rename_i hn
      refine ⟨hne, hnodup, ?_⟩
      rw [mem_dictKeys_iff, Option.isSome_iff_ne_none]
      simpa using hn
  | copy n nn =>
    simp only [applySheetOp, copySheet]
    split
    · exact ⟨hne, hnodup, hactive⟩
    · rename_i source hgn
      split
      · exact ⟨hne, hnodup, hactive⟩
      · rename_i hc
        have hcnot : pyOrStr nn (n ++ " (2)") ∉ dictKeys st.sheets := by
          rw [mem_dictKeys_iff]
          simpa using hc
        refine ⟨dictInsert_ne_nil _ _ _, ?_, ?_⟩
        · rw [dictKeys_insert_of_not_mem hcnot]
          exact nodup_append_singleton hnodup hcnot
        · rw [dictKeys_insert_of_not_mem hcnot]
          exact List.mem_append_left _ hactive

/-- C4 helper: the invariant is preserved along any operation sequence. -/
theorem applySheetOps_inv (ops : List SheetOp) : ∀ st : SimState,
    workbookInv st → workbookInv (applySheetOps ops st) := by
  induction ops with
  | nil => intro st h; exact h
  | cons op rest ih => intro st h; exact ih _ (applySheetOp_inv op st h)

/-- C4: after any sequence of create/delete/rename/activate/copy sheet
operations starting from the initial workbook, at least one sheet exists,
sheet names are pairwise distinct, and the active-sheet pointer names an
existing sheet. -/
theorem c4_sheet_invariant (ops : List SheetOp) : workbookInv (applySheetOps ops initState) := by
  refine applySheetOps_inv ops initState ⟨?_, ?_, ?_⟩
  · simp [initState]
  · simp [initState, dictKeys]
  · simp [initState, dictKeys]

/-- C5 (amended): on an empty sheet with no row cap, `get_used_range`
returns exactly the degenerate 1×1 box at `"A1"` with no values key.  When a
cap is supplied the result always carries a values slice, but the truncation
flag and returned-row count are present exactly when the sheet is non-empty
and the cap is below the total row count (the original claim wrongly said
they accompany every capped call).  With the cap omitted, no values,
truncation or row-count keys appear. -/
theorem c5_used_range_amended :
    (getUsedRange none none initState
        = .ok (.ok { address := "A1", rowCount := 1, columnCount := 1 }))
    ∧ (∀ (sh : Option String) (m : Int) (st : SimState) (sname : String) (sheet : Sheet)
          (r : UsedRangeInfo),
        resolveSheet sh st = .ok (sname, sheet) →
        getUsedRange sh (some m) st = .ok (.ok r) →
        r.values.isSome = true
        ∧ (r.truncated.isSome = true ↔ (sheet.cells.isEmpty = false ∧ m < r.rowCount))
        ∧ (r.rowsReturned.isSome = true ↔ (sheet.cells.isEmpty = false ∧ m < r.rowCount)))
    ∧ (∀ (sh : Option String) (st : SimState) (r : UsedRangeInfo),
        getUsedRange sh none st = .ok (.ok r) →
        r.values = none ∧ r.truncated = none ∧ r.rowsReturned = none) := by
  refine ⟨rfl, ?_, ?_⟩
  · intro sh m st sname sheet r hres hret
    rw [getUsedRange, hres] at hret
    dsimp only at hret
    by_cases hemp : sheet.cells.isEmpty = true
    · rw [if_pos hemp] at hret
      simp only [Option.isSome_some, Except.ok.injEq, ToolResult.ok.injEq] at hret
      subst hret
      refine ⟨rfl, ?_, ?_⟩ <;> simp [hemp]
    · rw [if_neg hemp] at hret
      rcases hub : usedBoundsAux (dictKeys sheet.cells) (none, 0, none, 0) with e | ⟨mc, xc, mr, xr⟩
      · rw [hub] at hret
        exact absurd hret (by simp)
      · rw [hub] at hret
        dsimp only at hret
        simp only [Except.ok.injEq, ToolResult.ok.injEq] at hret
        subst hret
        rw [Bool.not_eq_true] at hemp
        by_cases hm : m < xr - (mr.getD 0) + 1
        · refine ⟨rfl, ?_, ?_⟩ <;> simp [hm, hemp]
        · refine ⟨rfl, ?_, ?_⟩ <;> simp [hm, hemp]
  · intro sh st r hret
    rw [getUsedRange] at hret
    rcases hres : resolveSheet sh st with msg | ⟨sname, sheet⟩
    · rw [hres] at hret
      exact absurd hret (by simp)
    · rw [hres] at hret
      dsimp only at hret
      by_cases hemp : sheet.cells.isEmpty = true
      · rw [if_pos hemp] at hret
        simp only [Option.isSome_none, Except.ok.injEq, ToolResult.ok.injEq] at hret
        subst hret
        exact ⟨rfl, rfl, rfl⟩
      · rw [if_neg hemp] at hret
        rcases hub : usedBoundsAux (dictKeys sheet.cells) (none, 0, none, 0) with e | ⟨mc, xc, mr, xr⟩
        · rw [hub] at hret
          exact absurd hret (by simp)
        · rw [hub] at hret
          dsimp only at hret
          simp only [Except.ok.injEq, ToolResult.ok.injEq] at hret
          subst hret
          exact ⟨rfl, rfl, rfl⟩

/-- Counterexample to C5 as stated: with a row cap of 5 on the empty
initial sheet the result does carry a values slice, yet neither a
truncation flag nor a returned-row count appears. -/
theorem c5_used_range_counterexample :
    getUsedRange none (some 5) initState
      = .ok (.ok { address := "A1", rowCount := 1, columnCount := 1,
                   values := some [[PyVal.vstr ""]], truncated := none, rowsReturned := none }) := by
  rfl

/-- Witness for C5 (amended) at the empty initial sheet with cap 5. -/
theorem c5_used_range_amended_witness :
    (({ address := "A1", rowCount := 1, columnCount := 1, values := some [[PyVal.vstr ""]] } : UsedRangeInfo).values.isSome = true)
    ∧ (({ address := "A1", rowCount := 1, columnCount := 1, values := some [[PyVal.vstr ""]] } : UsedRangeInfo).truncated.isSome = true
        ↔ (({ name := "Sheet1" } : Sheet).cells.isEmpty = false
           ∧ (5 : Int) < ({ address := "A1", rowCount := 1, columnCount := 1, values := some [[PyVal.vstr ""]] } : UsedRangeInfo).rowCount)) := by
  have h := c5_used_range_amended.2.1 none 5 initState "Sheet1" { name := "Sheet1" }
    { address := "A1", rowCount := 1, columnCount := 1, values := some [[PyVal.vstr ""]] }
    (by rfl) (by rfl)
  exact ⟨h.1, h.2.1⟩

/-- C6 (amended): the range value/formula/format/number-format/clear
operations resolve a non-empty sheet qualifier embedded in the address in
preference to the explicitly passed sheet name — their result does not
depend on the explicit parameter at all when a qualifier is present.
`merge_cells` and `unmerge_cells`, however, never parse the address: they
resolve only the explicit (or active) sheet name and treat the full address
string as an opaque token (the original claim wrongly listed merge/unmerge
among the qualifier-preferring operations). -/
theorem c6_sheet_qualifier_amended :
    (∀ (addr S s0 e0 : String) (sh1 sh2 : Option String) (st : SimState),
      parseRange addr = (some S, s0, e0) → S ≠ "" →
      getRangeValues addr sh1 st = getRangeValues addr sh2 st)
    ∧ (∀ (addr S s0 e0 : String) (values : List (List PyVal)) (sh1 sh2 : Option String)
          (st : SimState),
        parseRange addr = (some S, s0, e0) → S ≠ "" →
        setRangeValues addr values sh1 st = setRangeValues addr values sh2 st)
    ∧ (∀ (addr S s0 e0 : String) (sh1 sh2 : Option String) (st : SimState),
        parseRange addr = (some S, s0, e0) → S ≠ "" →
        clearRange addr sh1 st = clearRange addr sh2 st)
    ∧ (∀ (addr S s0 e0 : String) (fmt : List (String × PyVal)) (sh1 sh2 : Option String)
          (st : SimState),
        parseRange addr = (some S, s0, e0) → S ≠ "" →
        formatRange addr sh1 fmt st = formatRange addr sh2 fmt st)
    ∧ (∀ (addr S s0 e0 code : String) (sh1 sh2 : Option String) (st : SimState),
        parseRange addr = (some S, s0, e0) → S ≠ "" →
        setNumberFormat addr code sh1 st = setNumberFormat addr code sh2 st)
    ∧ (∀ (addr S s0 e0 : String) (formulas : List (List String)) (sh1 sh2 : Option String)
          (st : SimState),
        parseRange addr = (some S, s0, e0) → S ≠ "" →
        setRangeFormulas addr formulas sh1 st = setRangeFormulas addr formulas sh2 st)
    ∧ (∀ (addr S s0 e0 : String) (sh1 sh2 : Option String) (st : SimState),
        parseRange addr = (some S, s0, e0) → S ≠ "" →
        getRangeFormulas addr sh1 st = getRangeFormulas addr sh2 st)
    ∧ (∀ (addr : String) (across : Bool) (sh : Option String) (st : SimState)
          (sname : String) (sheet : Sheet),
        resolveSheet sh st = .ok (sname, sheet) →
        mergeCells addr across sh st
          = (.ok { address := addr, merged := true },
             { st with sheets := (dictInsert sname
                 { sheet with merged := sheet.merged ++ [addr] } st.sheets) }))
    ∧ (∀ (addr : String) (sh : Option String) (st : SimState) (sname : String) (sheet : Sheet),
        resolveSheet sh st = .ok (sname, sheet) →
        unmergeCells addr sh st
          = (.ok { address := addr, unmerged := true },
             { st with sheets := (dictInsert sname
                 { sheet with merged := sheet.merged.filter (fun x => x ≠ addr) } st.sheets) })) := by
  refine ⟨?_, ?_, ?_, ?_, ?_, ?_, ?_, ?_, ?_⟩
  · intro addr S s0 e0 sh1 sh2 st hp hS
    simp only [getRangeValues, hp, pyOrOpt_some hS]
  · intro addr S s0 e0 values sh1 sh2 st hp hS
    simp only [setRangeValues, hp, pyOrOpt_some hS]
  · intro addr S s0 e0 sh1 sh2 st hp hS
    simp only [clearRange, hp, pyOrOpt_some hS]
  · intro addr S s0 e0 fmt sh1 sh2 st hp hS
    simp only [formatRange, hp, pyOrOpt_some hS]
  · intro addr S s0 e0 code sh1 sh2 st hp hS
    simp only [setNumberFormat, hp, pyOrOpt_some hS]
  · intro addr S s0 e0 formulas sh1 sh2 st hp hS
    simp only [setRangeFormulas, hp, pyOrOpt_some hS]
  · intro addr S s0 e0 sh1 sh2 st hp hS
    simp only [getRangeFormulas, hp, pyOrOpt_some hS]
  · intro addr across sh st sname sheet hres
    rw [mergeCells, hres]
  · intro addr sh st sname sheet hres
    rw [unmergeCells, hres]

/-- Counterexample to C6 as stated: with two sheets (`Sheet1` active,
`Other` present), `merge_cells("Other!A1:B2")` records the merge on the
active `Sheet1`, not on the embedded qualifier `Other`; and after merging
that range on `Other` directly, `unmerge_cells("Other!A1:B2")` with no
explicit sheet leaves `Other` untouched. -/
theorem c6_sheet_qualifier_counterexample :
    ((dictGet "Sheet1" (mergeCells "Other!A1:B2" false none
        ((createSheet "Other" initState).2)).2.sheets).map Sheet.merged
      = some ["Other!A1:B2"])
    ∧ ((dictGet "Other" (mergeCells "Other!A1:B2" false none
        ((createSheet "Other" initState).2)).2.sheets).map Sheet.merged
      = some [])
    ∧ ((dictGet "Other" (unmergeCells "Other!A1:B2" none
        ((mergeCells "Other!A1:B2" false (some "Other")
          ((createSheet "Other" initState).2)).2)).2.sheets).map Sheet.merged
      = some ["Other!A1:B2"]) :=
  ⟨rfl, rfl, rfl⟩

/-- Witness for C6 (amended) at concrete addresses. -/
theorem c6_sheet_qualifier_amended_witness :
    getRangeValues "Other!A1" (some "Bogus") initState
      = getRangeValues "Other!A1" none initState
    ∧ mergeCells "X!A1" false none initState
      = (.ok { address := "X!A1", merged := true },
         { initState with sheets := (dictInsert "Sheet1"
             { ({ name := "Sheet1" } : Sheet) with
                 merged := ({ name := "Sheet1" } : Sheet).merged ++ ["X!A1"] }
             initState.sheets) }) :=
  ⟨c6_sheet_qualifier_amended.1 "Other!A1" "Other" "A1" "A1" (some "Bogus") none initState
      (by rfl) (by decide),
   c6_sheet_qualifier_amended.2.2.2.2.2.2.2.1 "X!A1" false none initState "Sheet1"
      { name := "Sheet1" } (by rfl)⟩

/-- C2: writing any rectangular non-empty 2D grid anchored at any cell and
reading back the address range covering exactly the written rows and columns
on the same sheet returns the written grid. -/
theorem c2_set_get_roundtrip (c r : Nat) (values : List (List PyVal)) (cols : Nat)
    (hrows : 1 ≤ values.length) (hcols : 1 ≤ cols)
    (hrect : ∀ row ∈ values, row.length = cols)
    (sname : String) (hsname : sname ≠ "") (sheet : Sheet) (st : SimState)
    (hsheet : dictGet sname st.sheets = some sheet) :
    ∃ (info : SetRangeInfo) (st' : SimState),
      setRangeValues (cellRef (c : Int) (r : Int) ++ ":"
          ++ cellRef ((c + cols - 1 : Nat) : Int) ((r + values.length - 1 : Nat) : Int))
        values (some sname) st = .ok (.ok info, st')
      ∧ getRangeValues (cellRef (c : Int) (r : Int) ++ ":"
          ++ cellRef ((c + cols - 1 : Nat) : Int) ((r + values.length - 1 : Nat) : Int))
        (some sname) st' = .ok (.ok values) := by
  have hpr : parseRange (cellRef (c : Int) (r : Int) ++ ":"
      ++ cellRef ((c + cols - 1 : Nat) : Int) ((r + values.length - 1 : Nat) : Int))
      = (none, cellRef (c : Int) (r : Int),
         cellRef ((c + cols - 1 : Nat) : Int) ((r + values.length - 1 : Nat) : Int)) :=
    parseRange_cellRefs c r (c + cols - 1) (r + values.length - 1)
  have hresolve : resolveSheet (pyOrOpt none (some sname)) st = .ok (sname, sheet) := by
    rw [pyOrOpt, resolveSheet, pyOrStr_some hsname, hsheet]
  refine ⟨{ address := cellRef (c : Int) (r : Int) ++ ":" ++ cellRef (colToIndex (indexToCol (c : Int)) + (((values.map List.length).foldl max 0 : Nat) : Int) - 1) ((r : Int) + (values.length : Int) - 1), rowsWritten := values.length, columnsWritten := (values.map List.length).foldl max 0 },
    { st with sheets := (dictInsert sname { sheet with cells := gridWrite (colToIndex (indexToCol (c : Int))) (r : Int) values sheet.cells } st.sheets) }, ?_, ?_⟩
  case refine_1 =>
    simp only [setRangeValues, hpr]
    rw [hresolve]
    rw [parseCell_cellRef c r]
  case refine_2 =>
    have hres2 : ∀ sheet' : Sheet,
        resolveSheet (pyOrOpt none (some sname))
          { st with sheets := dictInsert sname sheet' st.sheets } = .ok (sname, sheet') := by
      intro sheet'
      rw [pyOrOpt, resolveSheet, pyOrStr_some hsname]
      dsimp only
      rw [dictGet_insert_self]
    simp only [getRangeValues, hpr]
    rw [hres2]
    rw [parseCell_cellRef c r, parseCell_cellRef (c + cols - 1) (r + values.length - 1)]
    dsimp only
    rw [colToIndex_indexToCol c, colToIndex_indexToCol (c + cols - 1)]
    rw [pyRangeIncl_nat r values.length hrows, pyRangeIncl_nat c cols hcols]
    congr 1
    congr 1
    simp only [List.map_map]
    refine List.ext_getElem (by rw [List.length_map, List.length_range]) ?_
    intro ri h1 h2
    have hri : ri < values.length := by rwa [List.length_map, List.length_range] at h1
    simp only [List.getElem_map, List.getElem_range, Function.comp_apply, List.map_map]
    have hlen : values[ri].length = cols := hrect _ (List.getElem_mem hri)
    refine List.ext_getElem ?_ ?_
    · rw [List.length_map, List.length_range, hlen]
    · intro ci h3 h4
      have hci : ci < cols := by rwa [List.length_map, List.length_range] at h3
      simp only [List.getElem_map, List.getElem_range, Function.comp_apply]
      have hci2 : ci < (values.getD ri []).length := by
        rw [List.getD_eq_getElem values [] hri, hlen]
        exact hci
      rw [dictGetD, gridWrite_get c r values sheet.cells ri ci hri hci2, Option.getD_some]
      rw [List.getD_eq_getElem values [] hri]
      rw [List.getD_eq_getElem values[ri] PyVal.vnone (by rw [hlen]; exact hci)]

/-- Witness for C2 at the spec scenario: write `[[10,20],[30,40]]` at
`A1:B2` (`cellRef 0 1 = "A1"`, `cellRef 1 2 = "B2"`) and read it back. -/
theorem c2_set_get_roundtrip_witness :
    ∃ (info : SetRangeInfo) (st' : SimState),
      setRangeValues (cellRef ((0 : Nat) : Int) ((1 : Nat) : Int) ++ ":"
          ++ cellRef ((0 + 2 - 1 : Nat) : Int)
             ((1 + [[PyVal.vint 10, PyVal.vint 20], [PyVal.vint 30, PyVal.vint 40]].length - 1 : Nat) : Int))
        [[PyVal.vint 10, PyVal.vint 20], [PyVal.vint 30, PyVal.vint 40]] (some "Sheet1") initState
        = .ok (.ok info, st')
      ∧ getRangeValues (cellRef ((0 : Nat) : Int) ((1 : Nat) : Int) ++ ":"
          ++ cellRef ((0 + 2 - 1 : Nat) : Int)
             ((1 + [[PyVal.vint 10, PyVal.vint 20], [PyVal.vint 30, PyVal.vint 40]].length - 1 : Nat) : Int))
        (some "Sheet1") st'
        = .ok (.ok [[PyVal.vint 10, PyVal.vint 20], [PyVal.vint 30, PyVal.vint 40]]) :=
  c2_set_get_roundtrip 0 1 [[PyVal.vint 10, PyVal.vint 20], [PyVal.vint 30, PyVal.vint 40]] 2
    (by decide) (by decide) (by decide) "Sheet1" (by decide) { name := "Sheet1" } initState rfl

end ExcelSim
